import Mathlib

/-!
Verification of the Intention Packet Codec and Pattern Transform Engine of the
sacred-computing-platform repository (files `sacred_intention_broadcaster.py`
and `healing-api.py`).

Modelling conventions:
* A Python `str` is a list of Unicode code points (`PyStr := List Nat`), a
  Python `bytes` a list of naturals below 256.
* Python `float` arithmetic is idealised over `ℚ`: decimal literals are read
  as exact decimals, while the float constants `PHI`, `SQRT3`, `SQRT2` are
  the exact rational values of the binary64 doubles the Python code computes.
  `repr` of a float (used by `json.dumps` for the two float payload fields)
  is abstracted as an explicitly supplied number token.
* The wall clock read by `datetime.now()` is passed explicitly as a `Clock`
  value; a `Clock` argument is threaded to every pattern generator to record
  that each call happens at some instant (all but `flower_of_life_pattern`
  ignore it).
* `raise ValueError` is modelled with `Except PyErr`.
-/

/-- Python strings are sequences of Unicode code points. -/
abbrev PyStr : Type := List Nat

/-- Converts a Lean string literal to the code-point model. -/
def pyStr (s : String) : PyStr := s.toList.map Char.toNat

/-- Code point of the opening brace (written numerically for clarity of the
serialised JSON text). -/
def lbraceC : Nat := 123

/-- Code point of the closing brace. -/
def rbraceC : Nat := 125

/-- Lower-case hexadecimal digit for a value below 16. -/
def hexChar (d : Nat) : Nat := if d < 10 then 48 + d else 87 + d

/-- Two lower-case hex digits of a byte, as `bytes.hex()` / `hexdigest` do. -/
def byteHex (b : Nat) : PyStr := [hexChar (b / 16 % 16), hexChar (b % 16)]

/-- Hex string of a byte sequence (Python `hashlib.….hexdigest()`). -/
def bytesHex (l : List Nat) : PyStr := (l.map byteHex).flatten

/-- Decimal digits of a natural number, as Python `str(n)` renders it. -/
def natRepr (n : Nat) : PyStr :=
  if h : n < 10 then [48 + n]
  else natRepr (n / 10) ++ [48 + n % 10]
termination_by n
decreasing_by exact Nat.div_lt_self (by omega) (by omega)

/-- Decimal rendering of an integer, as Python `str(i)`. -/
def intRepr (i : Int) : PyStr :=
  if i < 0 then 45 :: natRepr (-i).toNat else natRepr i.toNat

/-- Python `int(q)` for a rational: truncation toward zero. -/
def pyInt (q : ℚ) : Int := q.num / (q.den : Int)

/-- Python `a % b` on numbers: floor-based remainder. -/
def qmod (a b : ℚ) : ℚ := a - b * ⌊a / b⌋

/-- Zero-padded two-digit rendering, Python `f"{n:02d}"` for `0 ≤ n ≤ 99`. -/
def pad2 (n : Nat) : PyStr := if n < 10 then 48 :: natRepr n else natRepr n

/-- Three-digit zero padding used when rendering thousandths. -/
def pad3 (n : Nat) : PyStr :=
  if n < 10 then 48 :: 48 :: natRepr n
  else if n < 100 then 48 :: natRepr n else natRepr n

/-- Round half to even of a rational to an integer (idealised `%.3f` core). -/
def roundHalfEven (q : ℚ) : Int :=
  let f : Int := ⌊q⌋
  let r : ℚ := q - (f : ℚ)
  if r < 1/2 then f
  else if 1/2 < r then f + 1
  else if f % 2 = 0 then f else f + 1

/-- Python `f"{q:.3f}"` idealised over `ℚ`: half-even rounding to
thousandths, rendered with exactly three decimals. -/
def fmt3 (q : ℚ) : PyStr :=
  let n : Int := roundHalfEven (q * 1000)
  let sign : PyStr := if n < 0 then [45] else []
  let a : Nat := n.natAbs
  sign ++ natRepr (a / 1000) ++ [46] ++ pad3 (a % 1000)

/-! ### SHA-256 and SHA-512 (FIPS 180-4), over byte lists -/

/-- Word mask for `w`-bit arithmetic. -/
def wmask (w : Nat) : Nat := 2 ^ w - 1

/-- Right-rotation of a `w`-bit word. -/
def rotr (w n x : Nat) : Nat :=
  ((x >>> n) ||| (x <<< (w - n))) &&& wmask w

/-- SHA-2 round constants, 32-bit family. -/
def shaK256 : List Nat :=
  [1116352408, 1899447441, 3049323471, 3921009573,
   961987163, 1508970993, 2453635748, 2870763221,
   3624381080, 310598401, 607225278, 1426881987,
   1925078388, 2162078206, 2614888103, 3248222580,
   3835390401, 4022224774, 264347078, 604807628,
   770255983, 1249150122, 1555081692, 1996064986,
   2554220882, 2821834349, 2952996808, 3210313671,
   3336571891, 3584528711, 113926993, 338241895,
   666307205, 773529912, 1294757372, 1396182291,
   1695183700, 1986661051, 2177026350, 2456956037,
   2730485921, 2820302411, 3259730800, 3345764771,
   3516065817, 3600352804, 4094571909, 275423344,
   430227734, 506948616, 659060556, 883997877,
   958139571, 1322822218, 1537002063, 1747873779,
   1955562222, 2024104815, 2227730452, 2361852424,
   2428436474, 2756734187, 3204031479, 3329325298]

/-- SHA-256 initial hash state. -/
def shaH256 : List Nat :=
  [1779033703, 3144134277, 1013904242, 2773480762,
   1359893119, 2600822924, 528734635, 1541459225]

/-- SHA-2 round constants, 64-bit family. -/
def shaK512 : List Nat :=
  [4794697086780616226, 8158064640168781261,
   13096744586834688815, 16840607885511220156,
   4131703408338449720, 6480981068601479193,
   10538285296894168987, 12329834152419229976,
   15566598209576043074, 1334009975649890238,
   2608012711638119052, 6128411473006802146,
   8268148722764581231, 9286055187155687089,
   11230858885718282805, 13951009754708518548,
   16472876342353939154, 17275323862435702243,
   1135362057144423861, 2597628984639134821,
   3308224258029322869, 5365058923640841347,
   6679025012923562964, 8573033837759648693,
   10970295158949994411, 12119686244451234320,
   12683024718118986047, 13788192230050041572,
   14330467153632333762, 15395433587784984357,
   489312712824947311, 1452737877330783856,
   2861767655752347644, 3322285676063803686,
   5560940570517711597, 5996557281743188959,
   7280758554555802590, 8532644243296465576,
   9350256976987008742, 10552545826968843579,
   11727347734174303076, 12113106623233404929,
   14000437183269869457, 14369950271660146224,
   15101387698204529176, 15463397548674623760,
   17586052441742319658, 1182934255886127544,
   1847814050463011016, 2177327727835720531,
   2830643537854262169, 3796741975233480872,
   4115178125766777443, 5681478168544905931,
   6601373596472566643, 7507060721942968483,
   8399075790359081724, 8693463985226723168,
   9568029438360202098, 10144078919501101548,
   10430055236837252648, 11840083180663258601,
   13761210420658862357, 14299343276471374635,
   14566680578165727644, 15097957966210449927,
   16922976911328602910, 17689382322260857208,
   500013540394364858, 748580250866718886,
   1242879168328830382, 1977374033974150939,
   2944078676154940804, 3659926193048069267,
   4368137639120453308, 4836135668995329356,
   5532061633213252278, 6448918945643986474,
   6902733635092675308, 7801388544844847127]

/-- SHA-512 initial hash state. -/
def shaH512 : List Nat :=
  [7640891576956012808, 13503953896175478587,
   4354685564936845355, 11912009170470909681,
   5840696475078001361, 11170449401992604703,
   2270897969802886507, 6620516959819538809]

/-- Splits a list into chunks of `k` elements (`k > 0` intended). -/
def chunksOf (k : Nat) (l : List Nat) : List (List Nat) :=
  if l.isEmpty ∨ k = 0 then []
  else l.take k :: chunksOf k (l.drop k)
termination_by l.length
decreasing_by
  simp only [List.length_drop]
  rename_i h
  simp only [List.isEmpty_iff, not_or] at h
  have : l.length ≠ 0 := by
    intro hl
    exact h.1 (List.eq_nil_of_length_eq_zero hl)
  omega

/-- Big-endian word assembled from `w/8` bytes. -/
def beWord (bytes : List Nat) : Nat :=
  bytes.foldl (fun acc b => acc * 256 + b) 0

/-- Big-endian byte rendering of a `w`-bit word. -/
def wordBytes (w x : Nat) : List Nat :=
  (List.range (w / 8)).reverse.map (fun i => x / 256 ^ i % 256)

/-- Small sigma functions of SHA-2, parameterised by rotation amounts. -/
def shaSSig (w r1 r2 sh x : Nat) : Nat :=
  rotr w r1 x ^^^ rotr w r2 x ^^^ (x >>> sh)

/-- Big sigma functions of SHA-2. -/
def shaBSig (w r1 r2 r3 x : Nat) : Nat :=
  rotr w r1 x ^^^ rotr w r2 x ^^^ rotr w r3 x

/-- Message schedule: extends the 16 block words to `rounds` words. -/
def shaSched (w : Nat) (s1a s1b s1c s0a s0b s0c : Nat) (rounds : Nat)
    (ws : List Nat) : List Nat :=
  (List.range (rounds - 16)).foldl
    (fun acc i =>
      let t :=
        (shaSSig w s1a s1b s1c (acc.getD (i + 14) 0) +
          acc.getD (i + 9) 0 +
          shaSSig w s0a s0b s0c (acc.getD (i + 1) 0) +
          acc.getD i 0) &&& wmask w
      acc ++ [t])
    ws

/-- One SHA-2 compression round step on the 8-word state. -/
def shaRound (w b1 b2 b3 b4 b5 b6 : Nat)
    (st : List Nat) (kw : Nat × Nat) : List Nat :=
  match st with
  | [a, b, c, d, e, f, g, h] =>
    let s1 := shaBSig w b4 b5 b6 e
    let ch := (e &&& f) ^^^ ((e ^^^ wmask w) &&& g)
    let t1 := (h + s1 + ch + kw.1 + kw.2) &&& wmask w
    let s0 := shaBSig w b1 b2 b3 a
    let mj := (a &&& b) ^^^ (a &&& c) ^^^ (b &&& c)
    let t2 := (s0 + mj) &&& wmask w
    [(t1 + t2) &&& wmask w, a, b, c, (d + t1) &&& wmask w, e, f, g]
  | st => st

/-- SHA-2 padding: append `0x80`, zeros and the 8- or 16-byte bit length. -/
def shaPad (blockLen lenBytes : Nat) (msg : List Nat) : List Nat :=
  let bitLen := msg.length * 8
  let zeros :=
    (blockLen - (msg.length + 1 + lenBytes) % blockLen) % blockLen
  msg ++ [128] ++ List.replicate zeros 0 ++ wordBytes (lenBytes * 8) bitLen

/-- Generic SHA-2 digest over a byte list. -/
def sha2 (w blockLen rounds : Nat) (hInit kTab : List Nat)
    (b1 b2 b3 b4 b5 b6 s1a s1b s1c s0a s0b s0c : Nat)
    (msg : List Nat) : List Nat :=
  let blocks := chunksOf blockLen (shaPad blockLen (2 * (w / 8)) msg)
  let final := blocks.foldl
    (fun hst block =>
      let ws := (chunksOf (w / 8) block).map beWord
      let sched := shaSched w s1a s1b s1c s0a s0b s0c rounds ws
      let st := (kTab.zip sched).foldl (shaRound w b1 b2 b3 b4 b5 b6) hst
      (hst.zip st).map (fun p => (p.1 + p.2) &&& wmask w))
    hInit
  (final.map (wordBytes w)).flatten

/-- SHA-256 digest of a byte list. -/
def sha256 (msg : List Nat) : List Nat :=
  sha2 32 64 64 shaH256 shaK256 2 13 22 6 11 25 17 19 10 7 18 3 msg

/-- SHA-512 digest of a byte list. -/
def sha512 (msg : List Nat) : List Nat :=
  sha2 64 128 80 shaH512 shaK512 28 34 39 14 18 41 19 61 6 1 8 7 msg

/-- Hex digest of SHA-256, Python `hashlib.sha256(b).hexdigest()`. -/
def sha256HexD (msg : List Nat) : PyStr := bytesHex (sha256 msg)

/-- Hex digest of SHA-512, Python `hashlib.sha512(b).hexdigest()`. -/
def sha512HexD (msg : List Nat) : PyStr := bytesHex (sha512 msg)

/-! ### UTF-8 encoding and strict decoding -/

/-- UTF-8 encoding of one code point (total; on the surrogate range it emits
the generalised three-byte pattern, where Python `str.encode` would raise —
no such value reaches an encode in the modelled flows, which are ASCII). -/
def utf8Char (c : Nat) : List Nat :=
  if c < 128 then [c]
  else if c < 2048 then [192 + c / 64, 128 + c % 64]
  else if c < 65536 then [224 + c / 4096, 128 + c / 64 % 64, 128 + c % 64]
  else [240 + c / 262144, 128 + c / 4096 % 64, 128 + c / 64 % 64, 128 + c % 64]

/-- UTF-8 encoding of a string, Python `s.encode('utf-8')`. -/
def utf8Encode (s : PyStr) : List Nat := (s.map utf8Char).flatten

/-- Continuation-byte test. -/
def isCont (b : Nat) : Bool := 128 ≤ b ∧ b ≤ 191

/-- Strict UTF-8 decoding with fuel, Python `bytes.decode('utf-8')`:
rejects invalid leads, overlong forms, surrogates and values above
`0x10FFFF`. -/
def utf8DecodeF (fuel : Nat) (l : List Nat) : Option PyStr :=
  match fuel with
  | 0 => none
  | fuel + 1 =>
    match l with
    | [] => some []
    | b :: r =>
      if b < 128 then
        (utf8DecodeF fuel r).map (fun t => b :: t)
      else if 194 ≤ b ∧ b ≤ 223 then
        match r with
        | b2 :: r2 =>
          if isCont b2 then
            (utf8DecodeF fuel r2).map (fun t => ((b - 192) * 64 + (b2 - 128)) :: t)
          else none
        | _ => none
      else if 224 ≤ b ∧ b ≤ 239 then
        match r with
        | b2 :: b3 :: r3 =>
          let lo2 := if b = 224 then 160 else 128
          let hi2 := if b = 237 then 159 else 191
          if lo2 ≤ b2 ∧ b2 ≤ hi2 ∧ isCont b3 then
            (utf8DecodeF fuel r3).map
              (fun t => ((b - 224) * 4096 + (b2 - 128) * 64 + (b3 - 128)) :: t)
          else none
        | _ => none
      else if 240 ≤ b ∧ b ≤ 244 then
        match r with
        | b2 :: b3 :: b4 :: r4 =>
          let lo2 := if b = 240 then 144 else 128
          let hi2 := if b = 244 then 143 else 191
          if lo2 ≤ b2 ∧ b2 ≤ hi2 ∧ isCont b3 ∧ isCont b4 then
            (utf8DecodeF fuel r4).map
              (fun t =>
                ((b - 240) * 262144 + (b2 - 128) * 4096 +
                  (b3 - 128) * 64 + (b4 - 128)) :: t)
          else none
        | _ => none
      else none

/-- Strict UTF-8 decoding of a byte list. -/
def utf8Decode (l : List Nat) : Option PyStr := utf8DecodeF (l.length + 1) l

/-! ### Base64 (`base64.b64encode` / `b64decode`) -/

/-- Standard Base64 alphabet character for a 6-bit value. -/
def b64Char (n : Nat) : Nat :=
  if n < 26 then 65 + n
  else if n < 52 then 97 + (n - 26)
  else if n < 62 then 48 + (n - 52)
  else if n = 62 then 43 else 47

/-- Membership in the standard Base64 alphabet. -/
def isB64Char (c : Nat) : Bool :=
  (65 ≤ c ∧ c ≤ 90) ∨ (97 ≤ c ∧ c ≤ 122) ∨ (48 ≤ c ∧ c ≤ 57) ∨ c = 43 ∨ c = 47

/-- Value of a Base64 alphabet character. -/
def b64Val (c : Nat) : Nat :=
  if 65 ≤ c ∧ c ≤ 90 then c - 65
  else if 97 ≤ c ∧ c ≤ 122 then c - 97 + 26
  else if 48 ≤ c ∧ c ≤ 57 then c - 48 + 52
  else if c = 43 then 62 else 63

/-- Base64 encoding of a byte list, Python `base64.b64encode`. -/
def b64Encode : List Nat → PyStr
  | [] => []
  | [a] =>
    [b64Char (a / 4), b64Char (a % 4 * 16), 61, 61]
  | [a, b] =>
    [b64Char (a / 4), b64Char (a % 4 * 16 + b / 16), b64Char (b % 16 * 4), 61]
  | a :: b :: c :: t =>
    b64Char (a / 4) :: b64Char (a % 4 * 16 + b / 16) ::
      b64Char (b % 16 * 4 + c / 64) :: b64Char (c % 64) :: b64Encode t

/-- Decodes filtered Base64 data in groups of four, padding accepted only at
the end of the data. -/
def b64Groups : PyStr → Option (List Nat)
  | [] => some []
  | a :: b :: c :: d :: t =>
    if a = 61 ∨ b = 61 then none
    else if c = 61 then
      if d = 61 ∧ t = [] then some [b64Val a * 4 + b64Val b / 16]
      else none
    else if d = 61 then
      if t = [] then
        some [b64Val a * 4 + b64Val b / 16, b64Val b % 16 * 16 + b64Val c / 4]
      else none
    else
      (b64Groups t).map
        (fun r =>
          (b64Val a * 4 + b64Val b / 16) ::
            (b64Val b % 16 * 16 + b64Val c / 4) ::
            (b64Val c % 4 * 64 + b64Val d) :: r)
  | _ => none

/-- Python `base64.b64decode` on a `str` argument: fails on non-ASCII input,
discards characters outside the alphabet, then requires a multiple of four
characters. -/
def b64DecodePy (s : PyStr) : Option (List Nat) :=
  if s.all (fun c => c < 128) then
    let t := s.filter (fun c => isB64Char c ∨ c = 61)
    if t.length % 4 = 0 then b64Groups t else none
  else none

/-! ### JSON values, `json.dumps` and `json.loads` -/

/-- JSON values as Python's `json` module produces and consumes them.
Number lexemes are kept as tokens: the codec never re-reads a numeric
field, only the `payload.intention` string. -/
inductive JVal where
  | jnull
  | jbool (b : Bool)
  | jnum (tok : PyStr)
  | jstr (s : PyStr)
  | jarr (elems : List JVal)
  | jobj (members : List (PyStr × JVal))

/-- Four lower-case hex digits of a value below `0x10000`. -/
def hex4 (n : Nat) : PyStr :=
  [hexChar (n / 4096 % 16), hexChar (n / 256 % 16),
   hexChar (n / 16 % 16), hexChar (n % 16)]

/-- Escape of one character under `json.dumps` with its default
`ensure_ascii=True`: printable ASCII except quote and backslash is literal,
the seven short escapes apply, everything else becomes `\uXXXX`, with a
surrogate pair for astral code points. -/
def escChar (c : Nat) : PyStr :=
  if c = 34 then [92, 34]
  else if c = 92 then [92, 92]
  else if 32 ≤ c ∧ c ≤ 126 then [c]
  else if c = 8 then [92, 98]
  else if c = 9 then [92, 116]
  else if c = 10 then [92, 110]
  else if c = 12 then [92, 102]
  else if c = 13 then [92, 114]
  else if c < 65536 then 92 :: 117 :: hex4 c
  else
    92 :: 117 :: hex4 (55296 + (c - 65536) / 1024) ++
      92 :: 117 :: hex4 (56320 + (c - 65536) % 1024)

/-- JSON string literal of a Python string. -/
def strLit (s : PyStr) : PyStr := 34 :: (s.map escChar).flatten ++ [34]

mutual

/-- Serialisation of a JSON value exactly as `json.dumps` renders it with
the default separators `", "` and `": "`. -/
def dumpsV : JVal → PyStr
  | .jnull => pyStr ("null")
  | .jbool true => pyStr ("true")
  | .jbool false => pyStr ("false")
  | .jnum tok => tok
  | .jstr s => strLit s
  | .jarr l => 91 :: dumpsE l ++ [93]
  | .jobj kvs => lbraceC :: dumpsM kvs ++ [rbraceC]

/-- Serialisation of array elements, `", "`-separated. -/
def dumpsE : List JVal → PyStr
  | [] => []
  | [v] => dumpsV v
  | v :: t => dumpsV v ++ pyStr (", ") ++ dumpsE t

/-- Serialisation of object members, `": "` between key and value. -/
def dumpsM : List (PyStr × JVal) → PyStr
  | [] => []
  | [(k, v)] => strLit k ++ pyStr (": ") ++ dumpsV v
  | (k, v) :: t => strLit k ++ pyStr (": ") ++ dumpsV v ++ pyStr (", ") ++ dumpsM t

end

/-- JSON whitespace. -/
def isWsC (c : Nat) : Bool := c = 32 ∨ c = 9 ∨ c = 10 ∨ c = 13

/-- Skips JSON whitespace. -/
def skipWs (s : PyStr) : PyStr := s.dropWhile isWsC

/-- ASCII digit test. -/
def isDigitC (c : Nat) : Bool := 48 ≤ c ∧ c ≤ 57

/-- Characters that can occur in a JSON number lexeme. -/
def isNumC (c : Nat) : Bool :=
  isDigitC c ∨ c = 45 ∨ c = 43 ∨ c = 46 ∨ c = 101 ∨ c = 69

/-- Value of a hex digit, both cases, as the `\uXXXX` escape accepts. -/
def hexValOpt (c : Nat) : Option Nat :=
  if 48 ≤ c ∧ c ≤ 57 then some (c - 48)
  else if 97 ≤ c ∧ c ≤ 102 then some (c - 87)
  else if 65 ≤ c ∧ c ≤ 70 then some (c - 55)
  else none

/-- Reads four hex digits. -/
def hex4Parse : PyStr → Option (Nat × PyStr)
  | c1 :: c2 :: c3 :: c4 :: r =>
    match hexValOpt c1, hexValOpt c2, hexValOpt c3, hexValOpt c4 with
    | some v1, some v2, some v3, some v4 =>
      some (v1 * 4096 + v2 * 256 + v3 * 16 + v4, r)
    | _, _, _, _ => none
  | _ => none

/-- Exponent part of the JSON number grammar (must reach the end). -/
def numExpTail (t : PyStr) : Bool :=
  let t' := match t with
    | c :: r => if c = 43 ∨ c = 45 then r else t
    | [] => t
  decide (t'.takeWhile isDigitC ≠ [] ∧ t'.dropWhile isDigitC = [])

/-- Exponent marker of the JSON number grammar. -/
def numExpOk : PyStr → Bool
  | [] => true
  | c :: t => if c = 101 ∨ c = 69 then numExpTail t else false

/-- Fraction part of the JSON number grammar. -/
def numFracOk (s : PyStr) : Bool :=
  match s with
  | [] => true
  | c :: t =>
    if c = 46 then
      decide (t.takeWhile isDigitC ≠ []) && numExpOk (t.dropWhile isDigitC)
    else numExpOk (c :: t)

/-- Integer part: a single zero or a nonzero digit followed by digits
(leading zeros are rejected, as Python's scanner does). -/
def numIntOk (s : PyStr) : Bool :=
  match s with
  | [] => false
  | c :: t =>
    if c = 48 then numFracOk t
    else if 49 ≤ c ∧ c ≤ 57 then numFracOk (t.dropWhile isDigitC)
    else false

/-- Whole JSON number lexeme check, Python's `NUMBER_RE` anchored to the
whole token. -/
def numTokOk (s : PyStr) : Bool :=
  match s with
  | [] => false
  | c :: t => if c = 45 then numIntOk t else numIntOk (c :: t)

/-- Prepends a decoded character to a string-body parse result. -/
def consStr (c : Nat) (o : Option (PyStr × PyStr)) : Option (PyStr × PyStr) :=
  o.map (fun p => (c :: p.1, p.2))

mutual

/-- Body of a JSON string literal after the opening quote, as Python's
strict scanner reads it: short escapes, `\uXXXX` with surrogate-pair
recombination (a lone surrogate is kept as such), unescaped control
characters rejected. -/
def parseStrBody : Nat → PyStr → Option (PyStr × PyStr)
  | 0, _ => none
  | fuel + 1, s =>
    match s with
    | [] => none
    | c :: r =>
      if c = 34 then some ([], r)
      else if c = 92 then
        match r with
        | [] => none
        | e :: r2 =>
          if e = 34 then consStr 34 (parseStrBody fuel r2)
          else if e = 92 then consStr 92 (parseStrBody fuel r2)
          else if e = 47 then consStr 47 (parseStrBody fuel r2)
          else if e = 98 then consStr 8 (parseStrBody fuel r2)
          else if e = 102 then consStr 12 (parseStrBody fuel r2)
          else if e = 110 then consStr 10 (parseStrBody fuel r2)
          else if e = 114 then consStr 13 (parseStrBody fuel r2)
          else if e = 116 then consStr 9 (parseStrBody fuel r2)
          else if e = 117 then
            match hex4Parse r2 with
            | none => none
            | some (n, r3) =>
              if 55296 ≤ n ∧ n < 56320 then
                match r3 with
                | 92 :: 117 :: r4 =>
                  match hex4Parse r4 with
                  | some (m, r5) =>
                    if 56320 ≤ m ∧ m < 57344 then
                      consStr (65536 + (n - 55296) * 1024 + (m - 56320))
                        (parseStrBody fuel r5)
                    else consStr n (parseStrBody fuel r3)
                  | none => consStr n (parseStrBody fuel r3)
                | _ => consStr n (parseStrBody fuel r3)
              else consStr n (parseStrBody fuel r3)
          else none
      else if c < 32 then none
      else consStr c (parseStrBody fuel r)

/-- JSON value parser (Python `json.loads` scanner, strict mode, with the
default `NaN`/`Infinity` constants accepted).  The grammar steps are split
into named helper functions, each consuming one unit of fuel; `jsonLoads`
supplies ample fuel, so the fuel never runs out on a parse the Python
scanner completes. -/
def parseValue : Nat → PyStr → Option (JVal × PyStr)
  | 0, _ => none
  | fuel + 1, s0 =>
    match skipWs s0 with
    | [] => none
    | c :: r =>
      if c = 34 then (parseStrBody fuel r).map (fun p => (.jstr p.1, p.2))
      else if c = 123 then objBody fuel (skipWs r)
      else if c = 91 then arrBody fuel (skipWs r)
      else if (c :: r).take 4 = pyStr ("null") then
        some (.jnull, (c :: r).drop 4)
      else if (c :: r).take 4 = pyStr ("true") then
        some (.jbool true, (c :: r).drop 4)
      else if (c :: r).take 5 = pyStr ("false") then
        some (.jbool false, (c :: r).drop 5)
      else if (c :: r).take 3 = pyStr ("NaN") then
        some (.jnum (pyStr ("NaN")), (c :: r).drop 3)
      else if (c :: r).take 8 = pyStr ("Infinity") then
        some (.jnum (pyStr ("Infinity")), (c :: r).drop 8)
      else if (c :: r).take 9 = pyStr ("-Infinity") then
        some (.jnum (pyStr ("-Infinity")), (c :: r).drop 9)
      else if isDigitC c ∨ c = 45 then
        let tok := (c :: r).takeWhile isNumC
        if numTokOk tok then some (.jnum tok, (c :: r).dropWhile isNumC)
        else none
      else none

/-- Inside of an object after `{` (whitespace already skipped). -/
def objBody : Nat → PyStr → Option (JVal × PyStr)
  | 0, _ => none
  | fuel + 1, x =>
    match x with
    | 125 :: r2 => some (.jobj [], r2)
    | r' => (parseMembs fuel r').map (fun p => (.jobj p.1, p.2))

/-- Inside of an array after `[` (whitespace already skipped). -/
def arrBody : Nat → PyStr → Option (JVal × PyStr)
  | 0, _ => none
  | fuel + 1, x =>
    match x with
    | 93 :: r2 => some (.jarr [], r2)
    | r' => (parseElems fuel r').map (fun p => (.jarr p.1, p.2))

/-- Array elements (nonempty case). -/
def parseElems : Nat → PyStr → Option (List JVal × PyStr)
  | 0, _ => none
  | fuel + 1, s => elemStep fuel (parseValue fuel s)

/-- Separator handling after one array element. -/
def elemStep : Nat → Option (JVal × PyStr) → Option (List JVal × PyStr)
  | 0, _ => none
  | fuel + 1, o =>
    match o with
    | none => none
    | some (v, r) =>
      match skipWs r with
      | 44 :: r2 => (parseElems fuel r2).map (fun p => (v :: p.1, p.2))
      | 93 :: r2 => some ([v], r2)
      | _ => none

/-- Object members (nonempty case): expects a key string next. -/
def parseMembs : Nat → PyStr → Option (List (PyStr × JVal) × PyStr)
  | 0, _ => none
  | fuel + 1, s =>
    match skipWs s with
    | 34 :: r => membKey fuel (parseStrBody fuel r)
    | _ => none

/-- Colon handling after an object key. -/
def membKey : Nat → Option (PyStr × PyStr) → Option (List (PyStr × JVal) × PyStr)
  | 0, _ => none
  | fuel + 1, o =>
    match o with
    | none => none
    | some (k, r2) =>
      match skipWs r2 with
      | 58 :: r3 => membVal fuel k (parseValue fuel r3)
      | _ => none

/-- Separator handling after one object member value. -/
def membVal : Nat → PyStr → Option (JVal × PyStr) →
    Option (List (PyStr × JVal) × PyStr)
  | 0, _, _ => none
  | fuel + 1, k, o =>
    match o with
    | none => none
    | some (v, r4) =>
      match skipWs r4 with
      | 44 :: r5 => (parseMembs fuel r5).map (fun p => ((k, v) :: p.1, p.2))
      | 125 :: r5 => some ([(k, v)], r5)
      | _ => none

end

/-- Python `json.loads`: a single value with only whitespace around it. -/
def jsonLoads (s : PyStr) : Option JVal :=
  match parseValue (2 * s.length + 2) s with
  | some (j, r) => if skipWs r = [] then some j else none
  | none => none

/-- Key lookup in a parsed object with `dict` semantics: a later duplicate
key overwrites an earlier one, as `json.loads` builds its dict. -/
def jGetRaw (kvs : List (PyStr × JVal)) (k : PyStr) : Option JVal :=
  kvs.foldl (fun acc kv => if kv.1 = k then some kv.2 else acc) none

/-- Python `obj[key]`: succeeds only on an object that has the key. -/
def jGet (j : JVal) (k : PyStr) : Option JVal :=
  match j with
  | .jobj kvs => jGetRaw kvs k
  | _ => none

/-- Code points that form well-formed Unicode text (Unicode scalar values:
below `0x110000` and not surrogates). -/
def ValidStr (s : PyStr) : Prop :=
  ∀ c ∈ s, c < 1114112 ∧ ¬(55296 ≤ c ∧ c < 57344)

instance : DecidablePred ValidStr := fun s =>
  List.decidableBAll _ s

/-- Well-formed JSON number lexeme made of number characters. -/
def IsNumTok (tok : PyStr) : Prop :=
  (∀ c ∈ tok, isNumC c = true) ∧ numTokOk tok = true

instance : DecidablePred IsNumTok := fun tok => by
  unfold IsNumTok; infer_instance

mutual

/-- Well-formedness of a JSON value: strings are well-formed Unicode text,
number lexemes are grammatical. -/
def WFv : JVal → Prop
  | .jnull => True
  | .jbool _ => True
  | .jnum tok => IsNumTok tok
  | .jstr s => ValidStr s
  | .jarr l => WFe l
  | .jobj kvs => WFm kvs

/-- Well-formedness of array elements. -/
def WFe : List JVal → Prop
  | [] => True
  | v :: t => WFv v ∧ WFe t

/-- Well-formedness of object members. -/
def WFm : List (PyStr × JVal) → Prop
  | [] => True
  | (k, v) :: t => ValidStr k ∧ WFv v ∧ WFm t

end

/-! ### Sacred constants (module-level constants of both Python files) -/

/-- Exact rational value of the binary64 double `(1 + 5 ** 0.5) / 2`. -/
def PHI : ℚ := 910872158600853 / 562949953421312

/-- Exact rational value of the binary64 double `3 ** 0.5`. -/
def SQRT3 : ℚ := 3900231685776981 / 2251799813685248

/-- Exact rational value of the binary64 double `2 ** 0.5`. -/
def SQRT2 : ℚ := 6369051672525773 / 4503599627370496

/-- Literal `7.83`, idealised as an exact decimal. -/
def SCHUMANN_RESONANCE : ℚ := 783 / 100

/-- Fibonacci table of the sources. -/
def FIBONACCI : List Nat :=
  [1, 1, 2, 3, 5, 8, 13, 21, 34, 55, 89, 144, 233, 377, 610, 987]

/-- Multiples-of-three table (`METATRON`) of the sources. -/
def METATRON : List Nat :=
  [3, 6, 9, 12, 15, 18, 21, 24, 27, 30, 33, 36, 39, 42, 45, 48]

/-- Solfeggio frequency table. -/
def SOLFEGGIO : List Nat := [396, 417, 528, 639, 741, 852, 963]

/-- Planetary angular lookup table, in its dict insertion order. -/
def PLANETARY_ANGLES : List (PyStr × ℚ) :=
  [(pyStr ("sun"), 0), (pyStr ("moon"), 30), (pyStr ("mercury"), 60),
   (pyStr ("venus"), 90), (pyStr ("mars"), 120), (pyStr ("jupiter"), 150),
   (pyStr ("saturn"), 180), (pyStr ("uranus"), 210), (pyStr ("neptune"), 240),
   (pyStr ("pluto"), 270)]

/-- Wall-clock instant as far as the code observes it (`datetime.now()`:
only `hour` and `minute` are read). -/
structure Clock where
  hour : Nat
  minute : Nat

/-- Python `raise ValueError(msg)` — the spec's `InvalidArgument`. -/
inductive PyErr where
  | valueError (msg : PyStr)

/-! ### Network packet implementation (`PacketHeader`, `IntentionPacket`) -/

/-- Header state after `__init__` and the checksum assignment that
`IntentionPacket.__init__` always performs before the header is used. -/
structure PacketHeader where
  version : Nat
  type : Nat
  length : Nat
  sequenceId : Nat
  timestamp : Nat
  checksum : PyStr

/-- The `payload` dict of an `IntentionPacket`. -/
structure PacketPayload where
  intention : PyStr
  frequency : ℚ
  field_type : PyStr
  energy_signature : PyStr
  quantum_entanglement_key : PyStr

/-- The `metadata` dict of an `IntentionPacket`. -/
structure PacketMetadata where
  source_device : PyStr
  target_device : PyStr
  intention_strength : ℚ
  sacred_encoding : PyStr

/-- A constructed `IntentionPacket`.  `freqTok` and `strengthTok` are the
`repr` tokens that `json.dumps` emits for the two float fields (float
rendering is abstracted as an input; every other field is computed). -/
structure IntentionPacket where
  header : PacketHeader
  payload : PacketPayload
  metadata : PacketMetadata
  freqTok : PyStr
  strengthTok : PyStr

/-- The payload dict in the exact field order `__init__` inserts it. -/
def payloadJson (intention freqTok field_type es qk : PyStr) : JVal :=
  .jobj [(pyStr ("intention"), .jstr intention),
         (pyStr ("frequency"), .jnum freqTok),
         (pyStr ("field_type"), .jstr field_type),
         (pyStr ("energy_signature"), .jstr es),
         (pyStr ("quantum_entanglement_key"), .jstr qk)]

/-- Body of `IntentionPacket.__init__`: `es`/`qk` stand for the freshly
drawn `secrets.token_hex` values, `seqId`/`timestamp` for the state the
header builder reads, `sourceDevice` for the per-file constant label. -/
def mkIntentionPacket (intention : PyStr) (frequency : ℚ) (freqTok : PyStr)
    (field_type target_device es qk strengthTok : PyStr)
    (seqId timestamp : Nat) (sourceDevice : PyStr) : IntentionPacket :=
  let intention_strength : ℚ :=
    min ((intention.length : ℚ) * frequency / 100) 100
  let payload_str := dumpsV (payloadJson intention freqTok field_type es qk)
  { header :=
      { version := 1, type := 1, length := payload_str.length,
        sequenceId := seqId, timestamp := timestamp,
        checksum := (sha256HexD (utf8Encode payload_str)).take 16 },
    payload :=
      { intention := intention, frequency := frequency,
        field_type := field_type, energy_signature := es,
        quantum_entanglement_key := qk },
    metadata :=
      { source_device := sourceDevice, target_device := target_device,
        intention_strength := intention_strength,
        sacred_encoding := pyStr ("merkaba-torus-fibonacci") },
    freqTok := freqTok, strengthTok := strengthTok }

/-- `IntentionPacket.__init__` as a fallible operation: its body contains
no validation and no `raise`, so it always succeeds. -/
def intentionPacketNew (intention : PyStr) (frequency : ℚ) (freqTok : PyStr)
    (field_type target_device es qk strengthTok : PyStr)
    (seqId timestamp : Nat) (sourceDevice : PyStr) :
    Except PyErr IntentionPacket :=
  .ok (mkIntentionPacket intention frequency freqTok field_type target_device
    es qk strengthTok seqId timestamp sourceDevice)

/-- Source label of `sacred_intention_broadcaster.py` (the `healing-api.py`
copy of the class is line-identical except for this constant). -/
def broadcasterSource : PyStr := pyStr ("sacred-python-broadcaster")

/-- `IntentionPacket.to_dict`. -/
def IntentionPacket.toDict (p : IntentionPacket) : JVal :=
  .jobj [(pyStr ("header"), .jobj [
           (pyStr ("version"), .jnum (natRepr p.header.version)),
           (pyStr ("type"), .jnum (natRepr p.header.type)),
           (pyStr ("length"), .jnum (natRepr p.header.length)),
           (pyStr ("sequenceId"), .jnum (natRepr p.header.sequenceId)),
           (pyStr ("timestamp"), .jnum (natRepr p.header.timestamp)),
           (pyStr ("checksum"), .jstr p.header.checksum)]),
         (pyStr ("payload"),
           payloadJson p.payload.intention p.freqTok p.payload.field_type
             p.payload.energy_signature p.payload.quantum_entanglement_key),
         (pyStr ("metadata"), .jobj [
           (pyStr ("source_device"), .jstr p.metadata.source_device),
           (pyStr ("target_device"), .jstr p.metadata.target_device),
           (pyStr ("intention_strength"), .jnum p.strengthTok),
           (pyStr ("sacred_encoding"), .jstr p.metadata.sacred_encoding)])]

/-- `IntentionPacket.to_json`. -/
def IntentionPacket.toJsonStr (p : IntentionPacket) : PyStr :=
  dumpsV p.toDict

/-- `IntentionPacket.to_base64`. -/
def IntentionPacket.to_base64 (p : IntentionPacket) : PyStr :=
  b64Encode (utf8Encode p.toJsonStr)

/-- `extract_intention_from_packet`: every failure along the chain is
caught by the `except Exception` handler and becomes `None`. -/
def extract_intention_from_packet (packet_base64 : PyStr) : Option JVal :=
  (b64DecodePy packet_base64).bind fun bs =>
  (utf8Decode bs).bind fun txt =>
  (jsonLoads txt).bind fun j =>
  (jGet j (pyStr ("payload"))).bind fun pl =>
  jGet pl (pyStr ("intention"))

/-! ### Pattern Transform Engine (`SacredGeometryCalculator`) -/

/-- Python `min(items, key=key)`: scans left to right keeping the first
minimum. -/
def pyMinBy (key : Nat → ℚ) : Nat → List Nat → Nat
  | x, [] => x
  | x, y :: t => if key y < key x then pyMinBy key y t else pyMinBy key x t

/-- Result dict of `divine_proportion_amplify`. -/
structure DivineArtifact where
  original : PyStr
  phi_amplified : PyStr
  fibonacci_multiplier : Nat
  metatronic_alignment : Nat

/-- Computational body of `divine_proportion_amplify`. -/
def divineCore (intention : PyStr) (multiplier : ℚ) : DivineArtifact :=
  let intention_hash := sha512HexD (utf8Encode intention)
  let phi_segments := (List.range intention_hash.length).map (fun i =>
    let char_code := intention_hash.getD i 0
    let segment_value := (char_code : ℚ) * PHI ^ (i % 7 + 1)
    pad2 (pyInt (qmod segment_value 100)).toNat)
  let amplified := phi_segments.flatten
  let spiral_hash := sha256HexD (utf8Encode (amplified ++ intention))
  let fib_multiplier :=
    (FIBONACCI.find? (fun (f : Nat) => decide (multiplier ≤ (f : ℚ)))).getD 987
  let align := (intention.foldl (fun a c => a + c) 0) % 9
  { original := intention, phi_amplified := spiral_hash,
    fibonacci_multiplier := fib_multiplier,
    metatronic_alignment := if align = 0 then 9 else align }

/-- Result dict of `torus_field_generator`. -/
structure TorusArtifact where
  intention : PyStr
  torus_frequency : ℚ
  schumann_ratio : PyStr
  inner_flow : PyStr
  outer_flow : PyStr
  phase_angle : ℚ
  coherence : PyStr
  tesla_node : Nat
  activation_sequence : PyStr

/-- Computational body of `torus_field_generator` (identical in both
source files). -/
def torusCore (intention : PyStr) (hz : ℚ) : TorusArtifact :=
  let schumann_ratio := hz / SCHUMANN_RESONANCE
  let inner_flow := (sha512HexD (utf8Encode (intention ++ pyStr ("inner")))).take 12
  let outer_flow := (sha512HexD (utf8Encode (intention ++ pyStr ("outer")))).take 12
  let phase_angle := qmod (hz * 360) 360
  let coherence := (618 / 1000 : ℚ) * schumann_ratio
  let tesla_node := pyMinBy (fun x => |(x : ℚ) - qmod hz 10|) 3 [6, 9]
  { intention := intention, torus_frequency := hz,
    schumann_ratio := fmt3 schumann_ratio,
    inner_flow := inner_flow, outer_flow := outer_flow,
    phase_angle := phase_angle, coherence := fmt3 coherence,
    tesla_node := tesla_node,
    activation_sequence :=
      natRepr tesla_node ++ natRepr tesla_node ++ inner_flow.take tesla_node }

/-- Result dict of `merkaba_field_generator`. -/
structure MerkabaArtifact where
  intention : PyStr
  tetra_up : PyStr
  tetra_down : PyStr
  merkaba_frequency : ℚ
  solfeggio_alignment : Nat
  field_intensity : ℚ
  activation_code : PyStr

/-- Computational body of `merkaba_field_generator`. -/
def merkabaCore (intention : PyStr) (frequency : ℚ) : MerkabaArtifact :=
  let tetra_up := (sha256HexD (utf8Encode (intention ++ pyStr ("ascend")))).take 12
  let tetra_down := (sha256HexD (utf8Encode (intention ++ pyStr ("descend")))).take 12
  let closest_solfeggio :=
    pyMinBy (fun x => |(x : ℚ) - frequency * 100|) 396 [417, 528, 639, 741, 852, 963]
  let field_intensity :=
    ((frequency * SQRT3) / PHI) *
      (let m := qmod frequency 9; if m = 0 then 9 else m)
  { intention := intention, tetra_up := tetra_up, tetra_down := tetra_down,
    merkaba_frequency := frequency, solfeggio_alignment := closest_solfeggio,
    field_intensity := field_intensity,
    activation_code :=
      intRepr ⌊field_intensity⌋ ++ [32] ++ intRepr ⌊frequency * PHI⌋ ++
        [32] ++ intRepr ⌊(closest_solfeggio : ℚ) / PHI⌋ }

/-- Result dict of `flower_of_life_pattern`. -/
structure FlowerArtifact where
  intention : PyStr
  flower_pattern : PyStr
  planetary_alignment : PyStr
  cosmic_degree : ℚ
  optimal_duration : Int
  vesica_pisces_code : PyStr

/-- The `repr` text of the binary64 double `i * (360 / 7)` that the
`f"{intention}:{angle}:{radius}"` seed string embeds, precomputed. -/
def folAngleTok : Nat → PyStr
  | 0 => pyStr ("0.0")
  | 1 => pyStr ("51.42857142857143")
  | 2 => pyStr ("102.85714285714286")
  | 3 => pyStr ("154.28571428571428")
  | 4 => pyStr ("205.71428571428572")
  | 5 => pyStr ("257.14285714285717")
  | 6 => pyStr ("308.57142857142856")
  | _ => []

/-- The `repr` text of the binary64 double `(i + 1) * PHI`, precomputed. -/
def folRadiusTok : Nat → PyStr
  | 0 => pyStr ("1.618033988749895")
  | 1 => pyStr ("3.23606797749979")
  | 2 => pyStr ("4.854101966249685")
  | 3 => pyStr ("6.47213595499958")
  | 4 => pyStr ("8.090169943749475")
  | 5 => pyStr ("9.70820393249937")
  | 6 => pyStr ("11.326237921249264")
  | _ => []

/-- Computational body of `flower_of_life_pattern`, with the
`datetime.now()` instant as an explicit input. -/
def flowerCore (intention : PyStr) (duration : Int) (now : Clock) :
    FlowerArtifact :=
  let cosmic_degree : ℚ := (now.hour : ℚ) * 15 + (now.minute : ℚ) / 4
  let closest := PLANETARY_ANGLES.foldl
    (fun acc pa =>
      if |pa.2 - cosmic_degree| < acc.2 then (pa.1, |pa.2 - cosmic_degree|)
      else acc)
    (pyStr ("sun"), (360 : ℚ))
  let seed_patterns := (List.range 7).map (fun i =>
    (sha256HexD (utf8Encode
      (intention ++ [58] ++ folAngleTok i ++ [58] ++ folRadiusTok i))).take 8)
  let fol_pattern := seed_patterns.flatten
  let optimal_duration := max duration (pyInt ((duration : ℚ) * PHI))
  { intention := intention, flower_pattern := fol_pattern,
    planetary_alignment := closest.1, cosmic_degree := cosmic_degree,
    optimal_duration := optimal_duration,
    vesica_pisces_code :=
      seed_patterns.getD 0 [] ++ [32] ++ seed_patterns.getD 3 [] ++
        [32] ++ seed_patterns.getD 6 [] }

/-- Result dict of `metatrons_cube_amplifier`. -/
structure MetatronArtifact where
  intention : PyStr
  metatron_code : PyStr
  harmonic : Nat
  platonic_solids : List (PyStr × PyStr)
  activation_key : PyStr

/-- Computational body of `metatrons_cube_amplifier`. -/
def metatronCore (intention : PyStr) (boost : Bool) : MetatronArtifact :=
  let spheres := (List.range 13).map (fun i =>
    (sha512HexD (utf8Encode (intention ++ natRepr (METATRON.getD (i % 16) 0)))).take 6)
  let harmonic :=
    let s := (intention.foldl (fun a c => a + c) 0) % 9
    if s = 0 then 9 else s
  { intention := intention,
    metatron_code := if boost then spheres.flatten else (spheres.take 5).flatten,
    harmonic := harmonic,
    platonic_solids :=
      [(pyStr ("tetrahedron"), spheres.getD 0 []),
       (pyStr ("hexahedron"), spheres.getD 1 []),
       (pyStr ("octahedron"), spheres.getD 2 []),
       (pyStr ("dodecahedron"), spheres.getD 3 []),
       (pyStr ("icosahedron"), spheres.getD 4 [])],
    activation_key :=
      natRepr (harmonic * 3) ++ [45] ++ natRepr (harmonic * 6) ++
        [45] ++ natRepr (harmonic * 9) }

/-- Result dict of `sri_yantra_encoder` (the `marma_points` digest the
source computes does not appear in its returned dict and is omitted). -/
structure SriYantraArtifact where
  intention : PyStr
  triangles : List PyStr
  bindu : PyStr
  circuits : List PyStr
  inner_triangle : PyStr
  outer_triangle : PyStr
  yantra_code : PyStr

/-- Computational body of `sri_yantra_encoder`. -/
def sriYantraCore (intention : PyStr) : SriYantraArtifact :=
  let triangles := (List.range 9).map (fun i =>
    (sha256HexD (utf8Encode (intention ++
      (if i % 2 = 0 then pyStr ("shiva") else pyStr ("shakti")) ++
      natRepr i))).take 8)
  let bindu := (sha256HexD (utf8Encode (intention ++ pyStr ("bindu")))).take 9
  let circuits := (List.range 9).map (fun i =>
    (sha256HexD (utf8Encode (triangles.getD i [] ++ bindu))).take 6)
  { intention := intention, triangles := triangles, bindu := bindu,
    circuits := circuits,
    inner_triangle := triangles.getD 0 [],
    outer_triangle := triangles.getD 8 [],
    yantra_code :=
      bindu.take 3 ++ [45] ++ (triangles.getD 0 []).take 3 ++
        [45] ++ (triangles.getD 8 []).take 3 }

/-- Vertex/edge/face counts and element of one platonic solid. -/
structure SolidProps where
  vertices : Nat
  edges : Nat
  faces : Nat
  element : PyStr

/-- The `platonic_properties` dict. -/
def platonicProperties : List (PyStr × SolidProps) :=
  [(pyStr ("tetrahedron"), ⟨4, 6, 4, pyStr ("fire")⟩),
   (pyStr ("hexahedron"), ⟨8, 12, 6, pyStr ("earth")⟩),
   (pyStr ("octahedron"), ⟨6, 12, 8, pyStr ("air")⟩),
   (pyStr ("dodecahedron"), ⟨20, 30, 12, pyStr ("ether")⟩),
   (pyStr ("icosahedron"), ⟨12, 30, 20, pyStr ("water")⟩)]

/-- Dict lookup in `platonic_properties`. -/
def propsLookup (st : PyStr) : Option SolidProps :=
  (platonicProperties.find? (fun kv => decide (kv.1 = st))).map (fun kv => kv.2)

/-- The `ELEMENT_FREQUENCIES` dict (total: every element of the solids
table is present; the final branch is unreachable from it). -/
def elemFreq (e : PyStr) : Nat :=
  if e = pyStr ("fire") then 396
  else if e = pyStr ("earth") then 417
  else if e = pyStr ("air") then 528
  else if e = pyStr ("water") then 639
  else if e = pyStr ("ether") then 741
  else 0

/-- Result dict of `platonic_solid_resonator`. -/
structure PlatonicArtifact where
  intention : PyStr
  solid_type : PyStr
  element : PyStr
  vertices : List PyStr
  edges : List PyStr
  faces : List PyStr
  element_frequency : Nat
  activation_code : PyStr
  harmonic_pattern : PyStr

/-- Body of `platonic_solid_resonator` once the effective solid type and
its properties are fixed. -/
def platonicCoreWith (intention st : PyStr) (pr : SolidProps) :
    PlatonicArtifact :=
  let vertices := (List.range pr.vertices).map (fun i =>
    (sha256HexD (utf8Encode (intention ++ [118] ++ natRepr i))).take 6)
  let edges := (List.range pr.edges).map (fun i =>
    (sha256HexD (utf8Encode
      (vertices.getD (i % vertices.length) [] ++
        vertices.getD ((i + 1) % vertices.length) []))).take 4)
  let faces := (List.range pr.faces).map (fun i =>
    (sha256HexD (utf8Encode (edges.getD (i % edges.length) [] ++ intention))).take 6)
  let element_frequency := elemFreq pr.element
  { intention := intention, solid_type := st, element := pr.element,
    vertices := vertices.take 5, edges := edges.take 5, faces := faces.take 5,
    element_frequency := element_frequency,
    activation_code :=
      natRepr element_frequency ++ [45] ++ natRepr pr.vertices ++
        natRepr pr.faces,
    harmonic_pattern := (vertices.take 3).flatten ++ (faces.take 3).flatten }

/-- Computational body of `platonic_solid_resonator`: an unknown
`solid_type` is silently replaced by `"dodecahedron"`. -/
def platonicCore (intention st : PyStr) : PlatonicArtifact :=
  match propsLookup st with
  | some pr => platonicCoreWith intention st pr
  | none =>
    platonicCoreWith intention (pyStr ("dodecahedron"))
      ((propsLookup (pyStr ("dodecahedron"))).getD ⟨20, 30, 12, pyStr ("ether")⟩)

/-- `divine_proportion_amplify` with its validation. -/
def divine_proportion_amplify (intention : PyStr) (multiplier : ℚ)
    (_now : Clock) : Except PyErr DivineArtifact :=
  if intention = [] then
    .error (.valueError (pyStr ("Intention cannot be empty")))
  else .ok (divineCore intention multiplier)

/-- `torus_field_generator` with its validations. -/
def torus_field_generator (intention : PyStr) (hz : ℚ) (_now : Clock) :
    Except PyErr TorusArtifact :=
  if intention = [] then
    .error (.valueError (pyStr ("Intention cannot be empty")))
  else if hz ≤ 0 then
    .error (.valueError (pyStr ("Frequency must be positive")))
  else .ok (torusCore intention hz)

/-- `merkaba_field_generator` with its validations. -/
def merkaba_field_generator (intention : PyStr) (frequency : ℚ)
    (_now : Clock) : Except PyErr MerkabaArtifact :=
  if intention = [] then
    .error (.valueError (pyStr ("Intention cannot be empty")))
  else if frequency ≤ 0 then
    .error (.valueError (pyStr ("Frequency must be positive")))
  else .ok (merkabaCore intention frequency)

/-- `flower_of_life_pattern` with its validations; the only generator
whose result depends on the clock. -/
def flower_of_life_pattern (intention : PyStr) (duration : Int)
    (now : Clock) : Except PyErr FlowerArtifact :=
  if intention = [] then
    .error (.valueError (pyStr ("Intention cannot be empty")))
  else if duration ≤ 0 then
    .error (.valueError (pyStr ("Duration must be positive")))
  else .ok (flowerCore intention duration now)

/-- `metatrons_cube_amplifier` with its validation. -/
def metatrons_cube_amplifier (intention : PyStr) (boost : Bool)
    (_now : Clock) : Except PyErr MetatronArtifact :=
  if intention = [] then
    .error (.valueError (pyStr ("Intention cannot be empty")))
  else .ok (metatronCore intention boost)

/-- `sri_yantra_encoder` with its validation. -/
def sri_yantra_encoder (intention : PyStr) (_now : Clock) :
    Except PyErr SriYantraArtifact :=
  if intention = [] then
    .error (.valueError (pyStr ("Intention cannot be empty")))
  else .ok (sriYantraCore intention)

/-- `platonic_solid_resonator` with its validation. -/
def platonic_solid_resonator (intention solid_type : PyStr) (_now : Clock) :
    Except PyErr PlatonicArtifact :=
  if intention = [] then
    .error (.valueError (pyStr ("Intention cannot be empty")))
  else .ok (platonicCore intention solid_type)

/-! ### Lemmas: characters, hex, takeWhile/dropWhile -/

theorem takeWhile_append_all (p : Nat → Bool) (l r : List Nat)
    (hl : ∀ c ∈ l, p c = true) (hr : ∀ c, r.head? = some c → p c = false) :
    (l ++ r).takeWhile p = l := by
  induction l with
  | nil =>
    cases r with
    | nil => rfl
    | cons a t => simp [List.takeWhile_cons, hr a rfl]
  | cons a t ih =>
    have ha := hl a (by simp)
    simp only [List.cons_append, List.takeWhile_cons, ha, if_true]
    rw [ih (fun c hc => hl c (by simp [hc]))]

theorem dropWhile_append_all (p : Nat → Bool) (l r : List Nat)
    (hl : ∀ c ∈ l, p c = true) (hr : ∀ c, r.head? = some c → p c = false) :
    (l ++ r).dropWhile p = r := by
  induction l with
  | nil =>
    cases r with
    | nil => rfl
    | cons a t => simp [List.dropWhile_cons, hr a rfl]
  | cons a t ih =>
    have ha := hl a (by simp)
    simp only [List.cons_append, List.dropWhile_cons, ha, if_true]
    exact ih (fun c hc => hl c (by simp [hc]))

theorem skipWs_cons_not (c : Nat) (r : PyStr) (h : isWsC c = false) :
    skipWs (c :: r) = c :: r := by
  simp [skipWs, List.dropWhile_cons, h]

theorem hexChar_lt (d : Nat) (h : d < 16) : hexChar d < 128 := by
  unfold hexChar; split <;> omega

theorem hexValOpt_hexChar (d : Nat) (h : d < 16) :
    hexValOpt (hexChar d) = some d := by
  unfold hexChar hexValOpt
  split_ifs <;> first | (congr 1; omega) | omega

theorem hex4Parse_cons (c1 c2 c3 c4 : Nat) (r : PyStr) :
    hex4Parse (c1 :: c2 :: c3 :: c4 :: r) =
      match hexValOpt c1, hexValOpt c2, hexValOpt c3, hexValOpt c4 with
      | some v1, some v2, some v3, some v4 =>
        some (v1 * 4096 + v2 * 256 + v3 * 16 + v4, r)
      | _, _, _, _ => none := rfl

theorem hex4Parse_hex4 (n : Nat) (h : n < 65536) (r : PyStr) :
    hex4Parse (hex4 n ++ r) = some (n, r) := by
  show hex4Parse (hexChar (n / 4096 % 16) :: hexChar (n / 256 % 16) ::
    hexChar (n / 16 % 16) :: hexChar (n % 16) :: r) = some (n, r)
  rw [hex4Parse_cons, hexValOpt_hexChar _ (by omega),
    hexValOpt_hexChar _ (by omega), hexValOpt_hexChar _ (by omega),
    hexValOpt_hexChar _ (by omega)]
  simp only
  congr 2
  omega

theorem hex4_ascii (n : Nat) : ∀ c ∈ hex4 n, c < 128 := by
  intro c hc
  unfold hex4 at hc
  simp only [List.mem_cons, List.not_mem_nil, or_false] at hc
  rcases hc with rfl | rfl | rfl | rfl <;> exact hexChar_lt _ (by omega)

theorem bytesHex_ascii (l : List Nat) : ∀ c ∈ bytesHex l, c < 128 := by
  intro c hc
  unfold bytesHex at hc
  rcases List.mem_flatten.mp hc with ⟨piece, hp, hcp⟩
  rcases List.mem_map.mp hp with ⟨b, _, rfl⟩
  unfold byteHex at hcp
  simp only [List.mem_cons, List.not_mem_nil, or_false] at hcp
  rcases hcp with rfl | rfl <;> exact hexChar_lt _ (by omega)

theorem escChar_ascii (c x : Nat) (hx : x ∈ escChar c) : x < 128 := by
  unfold escChar at hx
  split_ifs at hx with h1 h2 h3 h4 h5 h6 h7 h8 h9
  any_goals (simp only [List.mem_cons, List.not_mem_nil, or_false] at hx; omega)
  · simp only [List.mem_cons] at hx
    rcases hx with rfl | rfl | h
    · omega
    · omega
    · exact hex4_ascii _ _ h
  · simp only [List.mem_cons, List.mem_append] at hx
    rcases hx with (rfl | rfl | h) | (rfl | rfl | h)
    · omega
    · omega
    · exact hex4_ascii _ _ h
    · omega
    · omega
    · exact hex4_ascii _ _ h

theorem escChar_ne_nil (c : Nat) : escChar c ≠ [] := by
  unfold escChar
  split_ifs <;> simp

/-! ### Round trip of JSON string escaping -/

theorem psb_cons (f c : Nat) (r : PyStr) :
    parseStrBody (f + 1) (c :: r) =
      (if c = 34 then some ([], r)
       else if c = 92 then
        match r with
        | [] => none
        | e :: r2 =>
          if e = 34 then consStr 34 (parseStrBody f r2)
          else if e = 92 then consStr 92 (parseStrBody f r2)
          else if e = 47 then consStr 47 (parseStrBody f r2)
          else if e = 98 then consStr 8 (parseStrBody f r2)
          else if e = 102 then consStr 12 (parseStrBody f r2)
          else if e = 110 then consStr 10 (parseStrBody f r2)
          else if e = 114 then consStr 13 (parseStrBody f r2)
          else if e = 116 then consStr 9 (parseStrBody f r2)
          else if e = 117 then
            match hex4Parse r2 with
            | none => none
            | some (n, r3) =>
              if 55296 ≤ n ∧ n < 56320 then
                match r3 with
                | 92 :: 117 :: r4 =>
                  (match hex4Parse r4 with
                   | some (m, r5) =>
                     if 56320 ≤ m ∧ m < 57344 then
                       consStr (65536 + (n - 55296) * 1024 + (m - 56320))
                         (parseStrBody f r5)
                     else consStr n (parseStrBody f r3)
                   | none => consStr n (parseStrBody f r3))
                | _ => consStr n (parseStrBody f r3)
              else consStr n (parseStrBody f r3)
          else none
       else if c < 32 then none
       else consStr c (parseStrBody f r)) := rfl

theorem psb_lit (f c : Nat) (r : PyStr) (h34 : c ≠ 34) (h92 : c ≠ 92)
    (hge : 32 ≤ c) :
    parseStrBody (f + 1) (c :: r) = consStr c (parseStrBody f r) := by
  rw [psb_cons, if_neg h34, if_neg h92, if_neg (by omega : ¬c < 32)]

theorem psb_u (f : Nat) (t : PyStr) :
    parseStrBody (f + 1) (92 :: 117 :: t) =
      match hex4Parse t with
      | none => none
      | some (n, r3) =>
        if 55296 ≤ n ∧ n < 56320 then
          match r3 with
          | 92 :: 117 :: r4 =>
            (match hex4Parse r4 with
             | some (m, r5) =>
               if 56320 ≤ m ∧ m < 57344 then
                 consStr (65536 + (n - 55296) * 1024 + (m - 56320))
                   (parseStrBody f r5)
               else consStr n (parseStrBody f r3)
             | none => consStr n (parseStrBody f r3))
          | _ => consStr n (parseStrBody f r3)
        else consStr n (parseStrBody f r3) := rfl

theorem psb_uOne (f n : Nat) (x : PyStr) (hn : n < 65536)
    (hns : ¬(55296 ≤ n ∧ n < 56320)) :
    parseStrBody (f + 1) (92 :: 117 :: (hex4 n ++ x)) =
      consStr n (parseStrBody f x) := by
  rw [psb_u, hex4Parse_hex4 n hn]
  simp only
  rw [if_neg hns]

theorem psb_pair (f hi lo : Nat) (x : PyStr)
    (h1 : 55296 ≤ hi) (h2 : hi < 56320) (h3 : 56320 ≤ lo) (h4 : lo < 57344) :
    parseStrBody (f + 1)
      (92 :: 117 :: (hex4 hi ++ (92 :: 117 :: (hex4 lo ++ x)))) =
      consStr (65536 + (hi - 55296) * 1024 + (lo - 56320))
        (parseStrBody f x) := by
  rw [psb_u, hex4Parse_hex4 hi (by omega)]
  simp only
  rw [if_pos ⟨h1, h2⟩, hex4Parse_hex4 lo (by omega)]
  simp only
  rw [if_pos ⟨h3, h4⟩]

theorem parseStrBody_escChar (c : Nat) (hc1 : c < 1114112)
    (hc2 : ¬(55296 ≤ c ∧ c < 57344)) (f : Nat) (x : PyStr) :
    parseStrBody (f + 1) (escChar c ++ x) = consStr c (parseStrBody f x) := by
  unfold escChar
  split_ifs with h1 h2 h3 h4 h5 h6 h7 h8 h9
  · subst h1; rfl
  · subst h2; rfl
  · simp only [List.cons_append, List.nil_append]
    exact psb_lit f c x (by omega) (by omega) (by omega)
  · subst h4; rfl
  · subst h5; rfl
  · subst h6; rfl
  · subst h7; rfl
  · subst h8; rfl
  · simp only [List.cons_append]
    exact psb_uOne f c x h9 (by omega)
  · have hge : 65536 ≤ c := by omega
    have hmod : (c - 65536) % 1024 < 1024 := Nat.mod_lt _ (by omega)
    have hdm : (c - 65536) / 1024 * 1024 + (c - 65536) % 1024 = c - 65536 := by
      omega
    have hdiv : (c - 65536) / 1024 < 1024 := by omega
    have hp := psb_pair f (55296 + (c - 65536) / 1024)
      (56320 + (c - 65536) % 1024) x (by omega) (by omega) (by omega) (by omega)
    have harith : 65536 + (55296 + (c - 65536) / 1024 - 55296) * 1024 +
        (56320 + (c - 65536) % 1024 - 56320) = c := by omega
    rw [harith] at hp
    have hlist : ((92 :: 117 :: hex4 (55296 + (c - 65536) / 1024) ++
        92 :: 117 :: hex4 (56320 + (c - 65536) % 1024)) ++ x : PyStr) =
        92 :: 117 :: (hex4 (55296 + (c - 65536) / 1024) ++
          (92 :: 117 :: (hex4 (56320 + (c - 65536) % 1024) ++ x))) := by
      simp
    rw [hlist]
    exact hp

theorem parseStrBody_rt (s : PyStr) : ∀ (f : Nat) (r : PyStr),
    ValidStr s → s.length + 1 ≤ f →
    parseStrBody f ((s.map escChar).flatten ++ 34 :: r) = some (s, r) := by
  induction s with
  | nil =>
    intro f r _ hf
    obtain ⟨f', rfl⟩ : ∃ f', f = f' + 1 := ⟨f - 1, by omega⟩
    rfl
  | cons c t ih =>
    intro f r hv hf
    obtain ⟨f', rfl⟩ : ∃ f', f = f' + 1 := ⟨f - 1, by omega⟩
    have hc := hv c (by simp)
    simp only [List.map_cons, List.flatten_cons, List.append_assoc]
    rw [parseStrBody_escChar c hc.1 hc.2 f' _]
    rw [ih f' r (fun a ha => hv a (by simp [ha])) (by simp at hf ⊢; omega)]
    rfl

/-! ### Round trip of `jsonLoads` over `dumpsV` output -/

mutual

/-- Fuel sufficient for `parseValue` on the serialisation of a value. -/
def fuelV : JVal → Nat
  | .jnull => 1
  | .jbool _ => 1
  | .jnum _ => 1
  | .jstr s => s.length + 2
  | .jarr l => fuelE l + 2
  | .jobj kvs => fuelM kvs + 2

/-- Fuel sufficient for `parseElems`. -/
def fuelE : List JVal → Nat
  | [] => 1
  | v :: t => max (fuelV v) (fuelE t + 1) + 1

/-- Fuel sufficient for `parseMembs`. -/
def fuelM : List (PyStr × JVal) → Nat
  | [] => 1
  | (k, v) :: t =>
    max (k.length + 1) (max (fuelV v) (fuelM t + 1) + 1) + 1

end

/-- The text following a serialised value must not extend a number lexeme. -/
def RestOk (r : PyStr) : Prop := ∀ c, r.head? = some c → isNumC c = false

/-- Round-trip goal for one value. -/
def GoalV (j : JVal) : Prop :=
  WFv j → ∀ f r, fuelV j ≤ f → RestOk r →
    parseValue f (dumpsV j ++ r) = some (j, r)

/-- Round-trip goal for nonempty element lists. -/
def GoalE (l : List JVal) : Prop :=
  l ≠ [] → WFe l → ∀ f r, fuelE l ≤ f →
    parseElems f (dumpsE l ++ 93 :: r) = some (l, r)

/-- Round-trip goal for nonempty member lists. -/
def GoalM (kvs : List (PyStr × JVal)) : Prop :=
  kvs ≠ [] → WFm kvs → ∀ f r, fuelM kvs ≤ f →
    parseMembs f (dumpsM kvs ++ 125 :: r) = some (kvs, r)

theorem pyStr_null : pyStr ("null") = [110, 117, 108, 108] := rfl

theorem pyStr_sepM : pyStr (": ") = [58, 32] := rfl

theorem pyStr_sepC : pyStr (", ") = [44, 32] := rfl

theorem skipWs_ws (s : PyStr) : skipWs (32 :: s) = skipWs s := by
  simp [skipWs, List.dropWhile_cons, isWsC]

theorem pv_succ (f : Nat) (s0 : PyStr) :
    parseValue (f + 1) s0 =
      (match skipWs s0 with
       | [] => none
       | c :: r =>
         if c = 34 then (parseStrBody f r).map (fun p => (.jstr p.1, p.2))
         else if c = 123 then objBody f (skipWs r)
         else if c = 91 then arrBody f (skipWs r)
         else if (c :: r).take 4 = pyStr ("null") then
           some (.jnull, (c :: r).drop 4)
         else if (c :: r).take 4 = pyStr ("true") then
           some (.jbool true, (c :: r).drop 4)
         else if (c :: r).take 5 = pyStr ("false") then
           some (.jbool false, (c :: r).drop 5)
         else if (c :: r).take 3 = pyStr ("NaN") then
           some (.jnum (pyStr ("NaN")), (c :: r).drop 3)
         else if (c :: r).take 8 = pyStr ("Infinity") then
           some (.jnum (pyStr ("Infinity")), (c :: r).drop 8)
         else if (c :: r).take 9 = pyStr ("-Infinity") then
           some (.jnum (pyStr ("-Infinity")), (c :: r).drop 9)
         else if isDigitC c ∨ c = 45 then
           let tok := (c :: r).takeWhile isNumC
           if numTokOk tok then some (.jnum tok, (c :: r).dropWhile isNumC)
           else none
         else none) := rfl

theorem pe_succ (f : Nat) (s : PyStr) :
    parseElems (f + 1) s = elemStep f (parseValue f s) := rfl

theorem parseValue_ws (f : Nat) (s : PyStr) :
    parseValue f (32 :: s) = parseValue f s := by
  cases f with
  | zero => rfl
  | succ f => rw [pv_succ, pv_succ, skipWs_ws]

theorem pm_succ (f : Nat) (s : PyStr) :
    parseMembs (f + 1) s =
      (match skipWs s with
       | 34 :: r => membKey f (parseStrBody f r)
       | _ => none) := rfl

theorem parseMembs_ws (f : Nat) (s : PyStr) :
    parseMembs f (32 :: s) = parseMembs f s := by
  cases f with
  | zero => rfl
  | succ f => rw [pm_succ, pm_succ, skipWs_ws]

theorem numTokOk_cons (c : Nat) (t : PyStr) :
    numTokOk (c :: t) = if c = 45 then numIntOk t else numIntOk (c :: t) := rfl

theorem numIntOk_cons (c : Nat) (t : PyStr) :
    numIntOk (c :: t) =
      if c = 48 then numFracOk t
      else if 49 ≤ c ∧ c ≤ 57 then numFracOk (t.dropWhile isDigitC)
      else false := rfl

theorem numTok_head (tok : PyStr) (h : numTokOk tok = true) :
    ∃ c t, tok = c :: t ∧ (c = 45 ∨ (48 ≤ c ∧ c ≤ 57)) := by
  cases tok with
  | nil => cases h
  | cons c t =>
    refine ⟨c, t, rfl, ?_⟩
    rw [numTokOk_cons] at h
    split_ifs at h with h45
    · left; exact h45
    · right
      rw [numIntOk_cons] at h
      split_ifs at h with h48 h19
      · omega
      · omega

theorem take_cons_ne (c d : Nat) (x y : PyStr) (hcd : c ≠ d) (n : Nat) :
    (c :: x).take (n + 1) ≠ d :: y := by
  intro he
  rw [List.take_succ_cons] at he
  exact hcd (List.head_eq_of_cons_eq he)

theorem pv_cons (f c : Nat) (z : PyStr) (hws : isWsC c = false) :
    parseValue (f + 1) (c :: z) =
      (if c = 34 then (parseStrBody f z).map (fun p => (.jstr p.1, p.2))
       else if c = 123 then objBody f (skipWs z)
       else if c = 91 then arrBody f (skipWs z)
       else if (c :: z).take 4 = pyStr ("null") then
         some (.jnull, (c :: z).drop 4)
       else if (c :: z).take 4 = pyStr ("true") then
         some (.jbool true, (c :: z).drop 4)
       else if (c :: z).take 5 = pyStr ("false") then
         some (.jbool false, (c :: z).drop 5)
       else if (c :: z).take 3 = pyStr ("NaN") then
         some (.jnum (pyStr ("NaN")), (c :: z).drop 3)
       else if (c :: z).take 8 = pyStr ("Infinity") then
         some (.jnum (pyStr ("Infinity")), (c :: z).drop 8)
       else if (c :: z).take 9 = pyStr ("-Infinity") then
         some (.jnum (pyStr ("-Infinity")), (c :: z).drop 9)
       else if isDigitC c ∨ c = 45 then
         if numTokOk ((c :: z).takeWhile isNumC) then
           some (.jnum ((c :: z).takeWhile isNumC), (c :: z).dropWhile isNumC)
         else none
       else none) := by
  rw [pv_succ, skipWs_cons_not _ _ hws]

theorem parseValue_numTok (f : Nat) (tok r : PyStr) (hnum : IsNumTok tok)
    (hr : RestOk r) (hf : 1 ≤ f) :
    parseValue f (tok ++ r) = some (.jnum tok, r) := by
  obtain ⟨f', rfl⟩ : ∃ f', f = f' + 1 := ⟨f - 1, by omega⟩
  obtain ⟨c, t, rfl, hc⟩ := numTok_head tok hnum.2
  have hcw : isWsC c = false := by unfold isWsC; simp only [decide_eq_false_iff_not]; omega
  simp only [List.cons_append]
  rw [pv_cons _ _ _ hcw]
  rw [if_neg (by omega : ¬c = 34), if_neg (by omega : ¬c = 123),
    if_neg (by omega : ¬c = 91)]
  have hn1 : (c :: (t ++ r)).take 4 ≠ pyStr ("null") := by
    rw [pyStr_null]; exact take_cons_ne _ _ _ _ (by omega) 3
  have hn2 : (c :: (t ++ r)).take 4 ≠ pyStr ("true") := by
    rw [show pyStr ("true") = [116, 114, 117, 101] from rfl]
    exact take_cons_ne _ _ _ _ (by omega) 3
  have hn3 : (c :: (t ++ r)).take 5 ≠ pyStr ("false") := by
    rw [show pyStr ("false") = [102, 97, 108, 115, 101] from rfl]
    exact take_cons_ne _ _ _ _ (by omega) 4
  have hn4 : (c :: (t ++ r)).take 3 ≠ pyStr ("NaN") := by
    rw [show pyStr ("NaN") = [78, 97, 78] from rfl]
    exact take_cons_ne _ _ _ _ (by omega) 2
  have hn5 : (c :: (t ++ r)).take 8 ≠ pyStr ("Infinity") := by
    rw [show pyStr ("Infinity") = [73, 110, 102, 105, 110, 105, 116, 121] from rfl]
    exact take_cons_ne _ _ _ _ (by omega) 7
  rw [if_neg hn1, if_neg hn2, if_neg hn3, if_neg hn4, if_neg hn5]
  have hInfNeg : (c :: (t ++ r)).take 9 ≠ pyStr ("-Infinity") := by
    rw [show pyStr ("-Infinity") = [45, 73, 110, 102, 105, 110, 105, 116, 121] from rfl]
    rcases hc with rfl | hc
    · -- c = 45: the lexeme "-" alone is ungrammatical, so a second character
      -- exists and is a number character, unlike the claimed I of -Infinity
      cases t with
      | nil => exact absurd hnum.2 (by decide)
      | cons b tb =>
        have hb : isNumC b = true := hnum.1 b (by simp)
        intro he
        simp only [List.cons_append, List.take_succ_cons] at he
        have h2 := List.head_eq_of_cons_eq (List.tail_eq_of_cons_eq he)
        subst h2
        simp [isNumC, isDigitC] at hb
    · exact take_cons_ne _ _ _ _ (by omega) 8
  rw [if_neg hInfNeg]
  have hstart : (isDigitC c = true) ∨ c = 45 := by
    rcases hc with rfl | hc
    · right; rfl
    · left; simp only [isDigitC, decide_eq_true_eq]; omega
  rw [if_pos hstart]
  have htw : (c :: (t ++ r)).takeWhile isNumC = c :: t := by
    have h0 := takeWhile_append_all isNumC (c :: t) r
      (fun a ha => hnum.1 a ha) (fun a ha => hr a ha)
    simpa using h0
  have hdw : (c :: (t ++ r)).dropWhile isNumC = r := by
    have h0 := dropWhile_append_all isNumC (c :: t) r
      (fun a ha => hnum.1 a ha) (fun a ha => hr a ha)
    simpa using h0
  rw [htw, hdw, if_pos hnum.2]

theorem skipWs_eq_self (l : PyStr)
    (h : ∀ c, l.head? = some c → isWsC c = false) : skipWs l = l := by
  cases l with
  | nil => rfl
  | cons c z => exact skipWs_cons_not c z (h c rfl)

theorem dumpsV_head (j : JVal) (hw : WFv j) :
    ∃ c z, dumpsV j = c :: z ∧ isWsC c = false ∧ c ≠ 93 ∧ c ≠ 125 ∧ c ≠ 44 := by
  cases j with
  | jnull => exact ⟨110, _, rfl, rfl, by omega, by omega, by omega⟩
  | jbool b =>
    cases b with
    | true => exact ⟨116, _, rfl, rfl, by omega, by omega, by omega⟩
    | false => exact ⟨102, _, rfl, rfl, by omega, by omega, by omega⟩
  | jnum tok =>
    obtain ⟨c, t, rfl, hc⟩ := numTok_head tok hw.2
    refine ⟨c, t, rfl, ?_, by omega, by omega, by omega⟩
    unfold isWsC
    simp only [decide_eq_false_iff_not]
    omega
  | jstr s => exact ⟨34, _, rfl, rfl, by omega, by omega, by omega⟩
  | jarr l => exact ⟨91, _, rfl, rfl, by omega, by omega, by omega⟩
  | jobj kvs => exact ⟨123, _, rfl, rfl, by omega, by omega, by omega⟩

theorem goalV_null : GoalV .jnull := by
  intro _ f r hf _
  have hf1 : 1 ≤ f := hf
  obtain ⟨f', rfl⟩ : ∃ f', f = f' + 1 := ⟨f - 1, by omega⟩
  rfl

theorem goalV_bool (b : Bool) : GoalV (.jbool b) := by
  intro _ f r hf _
  have hf1 : 1 ≤ f := hf
  obtain ⟨f', rfl⟩ : ∃ f', f = f' + 1 := ⟨f - 1, by omega⟩
  cases b <;> rfl

theorem goalV_num (tok : PyStr) : GoalV (.jnum tok) := by
  intro hw f r hf hr
  exact parseValue_numTok f tok r hw hr hf

theorem goalV_str (s : PyStr) : GoalV (.jstr s) := by
  intro hw f r hf hr
  have hf2 : s.length + 2 ≤ f := hf
  obtain ⟨f', rfl⟩ : ∃ f', f = f' + 1 := ⟨f - 1, by omega⟩
  have hsl : (dumpsV (.jstr s) : PyStr) ++ r =
      34 :: ((s.map escChar).flatten ++ 34 :: r) := by
    show strLit s ++ r = _
    simp [strLit]
  rw [hsl, pv_cons _ _ _ (by rfl), if_pos rfl,
    parseStrBody_rt s f' r hw (by omega)]
  rfl

theorem objBody_empty (f : Nat) (r : PyStr) :
    objBody (f + 1) (125 :: r) = some (.jobj [], r) := rfl

theorem objBody_ne (f c : Nat) (z : PyStr) (h : c ≠ 125) :
    objBody (f + 1) (c :: z) =
      (parseMembs f (c :: z)).map (fun p => (.jobj p.1, p.2)) := by
  simp only [objBody]
  split
  · rename_i heq
    exact absurd (List.head_eq_of_cons_eq heq) h
  · rfl

theorem arrBody_empty (f : Nat) (r : PyStr) :
    arrBody (f + 1) (93 :: r) = some (.jarr [], r) := rfl

theorem arrBody_ne (f c : Nat) (z : PyStr) (h : c ≠ 93) :
    arrBody (f + 1) (c :: z) =
      (parseElems f (c :: z)).map (fun p => (.jarr p.1, p.2)) := by
  simp only [arrBody]
  split
  · rename_i heq
    exact absurd (List.head_eq_of_cons_eq heq) h
  · rfl

theorem elemStep_comma (f : Nat) (v : JVal) (z : PyStr) :
    elemStep (f + 1) (some (v, 44 :: z)) =
      (parseElems f z).map (fun p => (v :: p.1, p.2)) := rfl

theorem elemStep_close (f : Nat) (v : JVal) (z : PyStr) :
    elemStep (f + 1) (some (v, 93 :: z)) = some ([v], z) := rfl

theorem pm_quote (f : Nat) (z : PyStr) :
    parseMembs (f + 1) (34 :: z) = membKey f (parseStrBody f z) := rfl

theorem membKey_colon (f : Nat) (k z : PyStr) :
    membKey (f + 1) (some (k, 58 :: z)) = membVal f k (parseValue f z) := rfl

theorem membVal_comma (f : Nat) (k : PyStr) (v : JVal) (z : PyStr) :
    membVal (f + 1) k (some (v, 44 :: z)) =
      (parseMembs f z).map (fun p => ((k, v) :: p.1, p.2)) := rfl

theorem membVal_close (f : Nat) (k : PyStr) (v : JVal) (z : PyStr) :
    membVal (f + 1) k (some (v, 125 :: z)) = some ([(k, v)], z) := rfl

theorem restOk_cons (d : Nat) (x : PyStr) (h : isNumC d = false) :
    RestOk (d :: x) := by
  intro c hc
  rw [List.head?_cons] at hc
  cases hc
  exact h

theorem parseElems_ws (f : Nat) (s : PyStr) :
    parseElems f (32 :: s) = parseElems f s := by
  cases f with
  | zero => rfl
  | succ f => rw [pe_succ, pe_succ, parseValue_ws]

theorem goalE_cons (v : JVal) (t : List JVal) (hv : GoalV v) (ht : GoalE t) :
    GoalE (v :: t) := by
  intro _ hw f r hf
  have hf' : max (fuelV v) (fuelE t + 1) + 1 ≤ f := hf
  obtain ⟨f', rfl⟩ : ∃ f', f = f' + 1 := ⟨f - 1, by omega⟩
  rw [pe_succ]
  cases t with
  | nil =>
    rw [show (dumpsE [v] : PyStr) = dumpsV v from rfl]
    rw [hv hw.1 f' (93 :: r) (by simp [fuelE] at hf' ⊢; omega) (restOk_cons 93 r rfl)]
    obtain ⟨f'', rfl⟩ : ∃ f'', f' = f'' + 1 := ⟨f' - 1, by simp [fuelE] at hf'; omega⟩
    exact elemStep_close f'' v r
  | cons w u =>
    have hdE : (dumpsE (v :: w :: u) : PyStr) ++ 93 :: r =
        dumpsV v ++ (44 :: 32 :: (dumpsE (w :: u) ++ 93 :: r)) := by
      show (dumpsV v ++ pyStr (", ") ++ dumpsE (w :: u)) ++ 93 :: r = _
      simp [pyStr_sepC]
    rw [hdE]
    rw [hv hw.1 f' _ (by omega) (restOk_cons 44 _ rfl)]
    obtain ⟨f'', rfl⟩ : ∃ f'', f' = f'' + 1 := ⟨f' - 1, by omega⟩
    rw [elemStep_comma, parseElems_ws]
    rw [ht (by simp) hw.2 f'' r (by omega)]
    rfl

theorem goalM_cons (k : PyStr) (v : JVal) (t : List (PyStr × JVal))
    (hv : GoalV v) (ht : GoalM t) : GoalM ((k, v) :: t) := by
  intro _ hw f r hf
  have hf' : max (k.length + 1) (max (fuelV v) (fuelM t + 1) + 1) + 1 ≤ f := hf
  obtain ⟨f', rfl⟩ : ∃ f', f = f' + 1 := ⟨f - 1, by omega⟩
  cases t with
  | nil =>
    have hdM : (dumpsM [(k, v)] : PyStr) ++ 125 :: r =
        34 :: ((k.map escChar).flatten ++ 34 :: (58 :: 32 :: (dumpsV v ++ 125 :: r))) := by
      show (strLit k ++ pyStr (": ") ++ dumpsV v) ++ 125 :: r = _
      simp [strLit, pyStr_sepM]
    rw [hdM, pm_quote]
    rw [parseStrBody_rt k f' _ hw.1 (by omega)]
    obtain ⟨f'', rfl⟩ : ∃ f'', f' = f'' + 1 := ⟨f' - 1, by omega⟩
    rw [membKey_colon, parseValue_ws]
    rw [hv hw.2.1 f'' (125 :: r) (by omega) (restOk_cons 125 _ rfl)]
    obtain ⟨f3, rfl⟩ : ∃ f3, f'' = f3 + 1 := ⟨f'' - 1, by omega⟩
    exact membVal_close f3 k v r
  | cons m u =>
    have hdM : (dumpsM ((k, v) :: m :: u) : PyStr) ++ 125 :: r =
        34 :: ((k.map escChar).flatten ++ 34 ::
          (58 :: 32 :: (dumpsV v ++ 44 :: 32 :: (dumpsM (m :: u) ++ 125 :: r)))) := by
      show (strLit k ++ pyStr (": ") ++ dumpsV v ++ pyStr (", ") ++
        dumpsM (m :: u)) ++ 125 :: r = _
      simp [strLit, pyStr_sepM, pyStr_sepC]
    rw [hdM, pm_quote]
    rw [parseStrBody_rt k f' _ hw.1 (by omega)]
    obtain ⟨f'', rfl⟩ : ∃ f'', f' = f'' + 1 := ⟨f' - 1, by omega⟩
    rw [membKey_colon, parseValue_ws]
    rw [hv hw.2.1 f'' _ (by omega) (restOk_cons 44 _ rfl)]
    obtain ⟨f3, rfl⟩ : ∃ f3, f'' = f3 + 1 := ⟨f'' - 1, by omega⟩
    rw [membVal_comma, parseMembs_ws]
    rw [ht (by simp) hw.2.2 f3 r (by omega)]
    rfl

theorem goalV_arr (l : List JVal) (he : GoalE l) : GoalV (.jarr l) := by
  intro hw f r hf hr
  have hf' : fuelE l + 2 ≤ f := hf
  obtain ⟨f', rfl⟩ : ∃ f', f = f' + 1 := ⟨f - 1, by omega⟩
  have htext : (dumpsV (.jarr l) : PyStr) ++ r = 91 :: (dumpsE l ++ 93 :: r) := by
    show (91 :: dumpsE l ++ [93]) ++ r = _
    simp
  rw [htext, pv_cons _ _ _ (by rfl), if_neg (by omega), if_neg (by omega),
    if_pos rfl]
  cases l with
  | nil =>
    rw [show (dumpsE ([] : List JVal) : PyStr) ++ 93 :: r = 93 :: r from rfl]
    rw [skipWs_cons_not _ _ (by rfl)]
    obtain ⟨f'', rfl⟩ : ∃ f'', f' = f'' + 1 := ⟨f' - 1, by simp [fuelE] at hf'; omega⟩
    exact arrBody_empty f'' r
  | cons v t =>
    obtain ⟨c0, z0, hd, hws0, h93, _, _⟩ := dumpsV_head v hw.1
    have hE : ∃ zz, (dumpsE (v :: t) : PyStr) = c0 :: zz := by
      cases t with
      | nil => exact ⟨z0, hd⟩
      | cons w u =>
        refine ⟨z0 ++ (pyStr (", ") ++ dumpsE (w :: u)), ?_⟩
        show dumpsV v ++ pyStr (", ") ++ dumpsE (w :: u) = _
        rw [hd]
        simp
    obtain ⟨zz, hzz⟩ := hE
    rw [hzz]
    rw [show ((c0 :: zz : PyStr) ++ 93 :: r) = c0 :: (zz ++ 93 :: r) from rfl]
    rw [skipWs_cons_not _ _ hws0]
    obtain ⟨f'', rfl⟩ : ∃ f'', f' = f'' + 1 := ⟨f' - 1, by omega⟩
    rw [arrBody_ne f'' c0 _ h93]
    rw [show (c0 :: (zz ++ 93 :: r) : PyStr) = dumpsE (v :: t) ++ 93 :: r from
      by rw [hzz]; rfl]
    rw [he (by simp) hw f'' r (by omega)]
    rfl

theorem goalV_obj (kvs : List (PyStr × JVal)) (hm : GoalM kvs) :
    GoalV (.jobj kvs) := by
  intro hw f r hf hr
  have hf' : fuelM kvs + 2 ≤ f := hf
  obtain ⟨f', rfl⟩ : ∃ f', f = f' + 1 := ⟨f - 1, by omega⟩
  have htext : (dumpsV (.jobj kvs) : PyStr) ++ r =
      123 :: (dumpsM kvs ++ 125 :: r) := by
    show (lbraceC :: dumpsM kvs ++ [rbraceC]) ++ r = _
    simp [lbraceC, rbraceC]
  rw [htext, pv_cons _ _ _ (by rfl), if_neg (by omega), if_pos rfl]
  cases kvs with
  | nil =>
    rw [show (dumpsM ([] : List (PyStr × JVal)) : PyStr) ++ 125 :: r =
      125 :: r from rfl]
    rw [skipWs_cons_not _ _ (by rfl)]
    obtain ⟨f'', rfl⟩ : ∃ f'', f' = f'' + 1 := ⟨f' - 1, by simp [fuelM] at hf'; omega⟩
    exact objBody_empty f'' r
  | cons kv t =>
    obtain ⟨k, v⟩ := kv
    have hM : ∃ zz, (dumpsM ((k, v) :: t) : PyStr) = 34 :: zz := by
      cases t with
      | nil =>
        refine ⟨(k.map escChar).flatten ++ [34] ++ pyStr (": ") ++ dumpsV v, ?_⟩
        show strLit k ++ pyStr (": ") ++ dumpsV v = _
        simp [strLit]
      | cons m u =>
        refine ⟨(k.map escChar).flatten ++ [34] ++ pyStr (": ") ++ dumpsV v ++
          pyStr (", ") ++ dumpsM (m :: u), ?_⟩
        show strLit k ++ pyStr (": ") ++ dumpsV v ++ pyStr (", ") ++
          dumpsM (m :: u) = _
        simp [strLit]
    obtain ⟨zz, hzz⟩ := hM
    rw [hzz]
    rw [show ((34 :: zz : PyStr) ++ 125 :: r) = 34 :: (zz ++ 125 :: r) from rfl]
    rw [skipWs_cons_not _ _ (by rfl)]
    obtain ⟨f'', rfl⟩ : ∃ f'', f' = f'' + 1 := ⟨f' - 1, by omega⟩
    rw [objBody_ne f'' 34 _ (by omega)]
    rw [show (34 :: (zz ++ 125 :: r) : PyStr) = dumpsM ((k, v) :: t) ++ 125 :: r from
      by rw [hzz]; rfl]
    rw [hm (by simp) hw f'' r (by omega)]
    rfl

theorem roundAll (n : Nat) :
    (∀ j : JVal, sizeOf j ≤ n → GoalV j) ∧
    (∀ l : List JVal, sizeOf l ≤ n → GoalE l) ∧
    (∀ kvs : List (PyStr × JVal), sizeOf kvs ≤ n → GoalM kvs) := by
  induction n using Nat.strong_induction_on with
  | _ n IH =>
    refine ⟨?_, ?_, ?_⟩
    · intro j hj
      cases j with
      | jnull => exact goalV_null
      | jbool b => exact goalV_bool b
      | jnum tok => exact goalV_num tok
      | jstr s => exact goalV_str s
      | jarr l =>
        have hs : sizeOf (JVal.jarr l) = 1 + sizeOf l := by simp
        exact goalV_arr l ((IH (n - 1) (by omega)).2.1 l (by omega))
      | jobj kvs =>
        have hs : sizeOf (JVal.jobj kvs) = 1 + sizeOf kvs := by simp
        exact goalV_obj kvs ((IH (n - 1) (by omega)).2.2 kvs (by omega))
    · intro l hl
      cases l with
      | nil => intro hne; exact absurd rfl hne
      | cons v t =>
        have hs : sizeOf (v :: t) = 1 + sizeOf v + sizeOf t := by simp
        have hv : 0 < sizeOf v := by cases v <;> simp <;> omega
        exact goalE_cons v t
          ((IH (n - 1) (by omega)).1 v (by omega))
          ((IH (n - 1) (by omega)).2.1 t (by omega))
    · intro kvs hkvs
      cases kvs with
      | nil => intro hne; exact absurd rfl hne
      | cons kv t =>
        obtain ⟨k, v⟩ := kv
        have hs : sizeOf ((k, v) :: t) = 1 + (1 + sizeOf k + sizeOf v) + sizeOf t := by
          simp
        have hv : 0 < sizeOf v := by cases v <;> simp <;> omega
        exact goalM_cons k v t
          ((IH (n - 1) (by omega)).1 v (by omega))
          ((IH (n - 1) (by omega)).2.2 t (by omega))

theorem roundV (j : JVal) (hw : WFv j) (f : Nat) (r : PyStr)
    (hf : fuelV j ≤ f) (hr : RestOk r) :
    parseValue f (dumpsV j ++ r) = some (j, r) :=
  (roundAll (sizeOf j)).1 j le_rfl hw f r hf hr

theorem escFlatten_ge (s : PyStr) : s.length ≤ ((s.map escChar).flatten).length := by
  induction s with
  | nil => simp
  | cons c t ih =>
    simp only [List.map_cons, List.flatten_cons, List.length_append,
      List.length_cons]
    have h1 : 1 ≤ (escChar c).length := by
      cases he : escChar c with
      | nil => exact absurd he (escChar_ne_nil c)
      | cons a b => simp
    omega

theorem boundAll (n : Nat) :
    (∀ j : JVal, sizeOf j ≤ n → WFv j → fuelV j ≤ 2 * (dumpsV j).length) ∧
    (∀ l : List JVal, sizeOf l ≤ n → WFe l →
      fuelE l ≤ 2 * (dumpsE l).length + 1) ∧
    (∀ kvs : List (PyStr × JVal), sizeOf kvs ≤ n → WFm kvs →
      fuelM kvs ≤ 2 * (dumpsM kvs).length + 1) := by
  induction n using Nat.strong_induction_on with
  | _ n IH =>
    refine ⟨?_, ?_, ?_⟩
    · intro j hj hw
      cases j with
      | jnull =>
        show 1 ≤ 2 * (pyStr ("null")).length
        simp [pyStr]
      | jbool b =>
        cases b with
        | true => show 1 ≤ 2 * (pyStr ("true")).length; simp [pyStr]
        | false => show 1 ≤ 2 * (pyStr ("false")).length; simp [pyStr]
      | jnum tok =>
        obtain ⟨c, t, rfl, _⟩ := numTok_head tok hw.2
        show 1 ≤ 2 * (c :: t).length
        simp
        omega
      | jstr s =>
        show s.length + 2 ≤ 2 * (strLit s).length
        have := escFlatten_ge s
        simp only [strLit, List.length_cons, List.length_append,
          List.length_singleton]
        omega
      | jarr l =>
        have hs : sizeOf (JVal.jarr l) = 1 + sizeOf l := by simp
        have hb := (IH (n - 1) (by omega)).2.1 l (by omega) hw
        show fuelE l + 2 ≤ 2 * (91 :: dumpsE l ++ [93]).length
        simp only [List.length_cons, List.length_append, List.length_singleton]
        omega
      | jobj kvs =>
        have hs : sizeOf (JVal.jobj kvs) = 1 + sizeOf kvs := by simp
        have hb := (IH (n - 1) (by omega)).2.2 kvs (by omega) hw
        show fuelM kvs + 2 ≤ 2 * (lbraceC :: dumpsM kvs ++ [rbraceC]).length
        simp only [List.length_cons, List.length_append, List.length_singleton]
        omega
    · intro l hl hw
      cases l with
      | nil => show 1 ≤ 2 * ([] : PyStr).length + 1; simp
      | cons v t =>
        have hs : sizeOf (v :: t) = 1 + sizeOf v + sizeOf t := by simp
        have hv : 0 < sizeOf v := by cases v <;> simp <;> omega
        have hbv := (IH (n - 1) (by omega)).1 v (by omega) hw.1
        have hvg : 1 ≤ (dumpsV v).length := by
          obtain ⟨c, z, hd, _⟩ := dumpsV_head v hw.1
          rw [hd]; simp
        cases t with
        | nil =>
          show max (fuelV v) (fuelE [] + 1) + 1 ≤ 2 * (dumpsV v).length + 1
          show max (fuelV v) 2 + 1 ≤ 2 * (dumpsV v).length + 1
          omega
        | cons w u =>
          have hbt := (IH (n - 1) (by omega)).2.1 (w :: u) (by omega) hw.2
          show max (fuelV v) (fuelE (w :: u) + 1) + 1 ≤
            2 * (dumpsV v ++ pyStr (", ") ++ dumpsE (w :: u)).length + 1
          simp only [List.length_append, pyStr_sepC, List.length_cons,
            List.length_nil]
          omega
    · intro kvs hkvs hw
      cases kvs with
      | nil => show 1 ≤ 2 * ([] : PyStr).length + 1; simp
      | cons kv t =>
        obtain ⟨k, v⟩ := kv
        have hs : sizeOf ((k, v) :: t) = 1 + (1 + sizeOf k + sizeOf v) + sizeOf t := by
          simp
        have hv : 0 < sizeOf v := by cases v <;> simp <;> omega
        have hbv := (IH (n - 1) (by omega)).1 v (by omega) hw.2.1
        have hkg := escFlatten_ge k
        have hsl : (strLit k).length = ((k.map escChar).flatten).length + 2 := by
          simp [strLit]
        have hvg : 1 ≤ (dumpsV v).length := by
          obtain ⟨c, z, hd, _⟩ := dumpsV_head v hw.2.1
          rw [hd]; simp
        cases t with
        | nil =>
          show max (k.length + 1) (max (fuelV v) (fuelM [] + 1) + 1) + 1 ≤
            2 * (strLit k ++ pyStr (": ") ++ dumpsV v).length + 1
          show max (k.length + 1) (max (fuelV v) 2 + 1) + 1 ≤
            2 * (strLit k ++ pyStr (": ") ++ dumpsV v).length + 1
          simp only [List.length_append, pyStr_sepM, List.length_cons,
            List.length_nil]
          omega
        | cons m u =>
          have hbt := (IH (n - 1) (by omega)).2.2 (m :: u) (by omega) hw.2.2
          show max (k.length + 1) (max (fuelV v) (fuelM (m :: u) + 1) + 1) + 1 ≤
            2 * (strLit k ++ pyStr (": ") ++ dumpsV v ++ pyStr (", ") ++
              dumpsM (m :: u)).length + 1
          simp only [List.length_append, pyStr_sepM, pyStr_sepC,
            List.length_cons, List.length_nil]
          omega

/-- Central result: on well-formed values, `json.loads` inverts
`json.dumps`. -/
theorem jsonLoads_dumps (j : JVal) (hw : WFv j) :
    jsonLoads (dumpsV j) = some j := by
  unfold jsonLoads
  have hb := (boundAll (sizeOf j)).1 j le_rfl hw
  have h := roundV j hw (2 * (dumpsV j).length + 2) [] (by omega)
    (fun c hc => by cases hc)
  rw [List.append_nil] at h
  rw [h]
  rfl

/-! ### UTF-8 and Base64 round trips on the relevant inputs -/

theorem utf8Char_ascii (c : Nat) (h : c < 128) : utf8Char c = [c] := by
  unfold utf8Char
  rw [if_pos h]

theorem utf8Encode_ascii (s : PyStr) (h : ∀ c ∈ s, c < 128) :
    utf8Encode s = s := by
  induction s with
  | nil => rfl
  | cons c t ih =>
    unfold utf8Encode
    simp only [List.map_cons, List.flatten_cons]
    rw [utf8Char_ascii c (h c (by simp))]
    have := ih (fun a ha => h a (by simp [ha]))
    unfold utf8Encode at this
    rw [this]
    rfl

theorem udf_succ (f : Nat) (l : List Nat) :
    utf8DecodeF (f + 1) l =
      (match l with
       | [] => some []
       | b :: r =>
         if b < 128 then (utf8DecodeF f r).map (fun t => b :: t)
         else if 194 ≤ b ∧ b ≤ 223 then
           match r with
           | b2 :: r2 =>
             if isCont b2 then
               (utf8DecodeF f r2).map (fun t => ((b - 192) * 64 + (b2 - 128)) :: t)
             else none
           | _ => none
         else if 224 ≤ b ∧ b ≤ 239 then
           match r with
           | b2 :: b3 :: r3 =>
             let lo2 := if b = 224 then 160 else 128
             let hi2 := if b = 237 then 159 else 191
             if lo2 ≤ b2 ∧ b2 ≤ hi2 ∧ isCont b3 then
               (utf8DecodeF f r3).map
                 (fun t => ((b - 224) * 4096 + (b2 - 128) * 64 + (b3 - 128)) :: t)
             else none
           | _ => none
         else if 240 ≤ b ∧ b ≤ 244 then
           match r with
           | b2 :: b3 :: b4 :: r4 =>
             let lo2 := if b = 240 then 144 else 128
             let hi2 := if b = 244 then 143 else 191
             if lo2 ≤ b2 ∧ b2 ≤ hi2 ∧ isCont b3 ∧ isCont b4 then
               (utf8DecodeF f r4).map
                 (fun t =>
                   ((b - 240) * 262144 + (b2 - 128) * 4096 +
                     (b3 - 128) * 64 + (b4 - 128)) :: t)
             else none
           | _ => none
         else none) := rfl

theorem utf8DecodeF_ascii (s : PyStr) : ∀ f, s.length + 1 ≤ f →
    (∀ c ∈ s, c < 128) → utf8DecodeF f s = some s := by
  induction s with
  | nil =>
    intro f hf _
    obtain ⟨f', rfl⟩ : ∃ f', f = f' + 1 := ⟨f - 1, by omega⟩
    rfl
  | cons c t ih =>
    intro f hf h
    obtain ⟨f', rfl⟩ : ∃ f', f = f' + 1 := ⟨f - 1, by omega⟩
    rw [udf_succ]
    simp only
    rw [if_pos (h c (by simp))]
    rw [ih f' (by simp at hf ⊢; omega) (fun a ha => h a (by simp [ha]))]
    rfl

theorem utf8Decode_ascii (s : PyStr) (h : ∀ c ∈ s, c < 128) :
    utf8Decode s = some s :=
  utf8DecodeF_ascii s (s.length + 1) le_rfl h

theorem b64Char_range (n : Nat) (h : n < 64) :
    (65 ≤ b64Char n ∧ b64Char n ≤ 90) ∨ (97 ≤ b64Char n ∧ b64Char n ≤ 122) ∨
      (48 ≤ b64Char n ∧ b64Char n ≤ 57) ∨ b64Char n = 43 ∨ b64Char n = 47 := by
  unfold b64Char
  split_ifs <;> omega

theorem b64Char_is (n : Nat) (h : n < 64) : isB64Char (b64Char n) = true := by
  have := b64Char_range n h
  unfold isB64Char
  simp only [decide_eq_true_eq]
  tauto

theorem b64Char_lt128 (n : Nat) (h : n < 64) : b64Char n < 128 := by
  have := b64Char_range n h
  omega

theorem b64Char_ne61 (n : Nat) (h : n < 64) : b64Char n ≠ 61 := by
  have := b64Char_range n h
  omega

theorem b64Val_char (n : Nat) (h : n < 64) : b64Val (b64Char n) = n := by
  unfold b64Char b64Val
  split_ifs <;> omega

theorem b64Encode_chars (l : List Nat) (h : ∀ b ∈ l, b < 256) :
    ∀ c ∈ b64Encode l, c < 128 ∧ (isB64Char c = true ∨ c = 61) := by
  induction l using b64Encode.induct with
  | case1 => intro c hc; cases hc
  | case2 a =>
    intro c hc
    have h1 : a / 4 < 64 := by have := h a (by simp); omega
    have h2 : a % 4 * 16 < 64 := by omega
    unfold b64Encode at hc
    simp only [List.mem_cons, List.not_mem_nil, or_false] at hc
    rcases hc with rfl | rfl | rfl | rfl
    · exact ⟨b64Char_lt128 _ h1, Or.inl (b64Char_is _ h1)⟩
    · exact ⟨b64Char_lt128 _ h2, Or.inl (b64Char_is _ h2)⟩
    · exact ⟨by omega, Or.inr rfl⟩
    · exact ⟨by omega, Or.inr rfl⟩
  | case3 a b =>
    intro c hc
    have ha := h a (by simp)
    have hb := h b (by simp)
    have h1 : a / 4 < 64 := by omega
    have h2 : a % 4 * 16 + b / 16 < 64 := by omega
    have h3 : b % 16 * 4 < 64 := by omega
    unfold b64Encode at hc
    simp only [List.mem_cons, List.not_mem_nil, or_false] at hc
    rcases hc with rfl | rfl | rfl | rfl
    · exact ⟨b64Char_lt128 _ h1, Or.inl (b64Char_is _ h1)⟩
    · exact ⟨b64Char_lt128 _ h2, Or.inl (b64Char_is _ h2)⟩
    · exact ⟨b64Char_lt128 _ h3, Or.inl (b64Char_is _ h3)⟩
    · exact ⟨by omega, Or.inr rfl⟩
  | case4 a b cc t ih =>
    intro c hc
    have ha := h a (by simp)
    have hb := h b (by simp)
    have hcc := h cc (by simp)
    have h1 : a / 4 < 64 := by omega
    have h2 : a % 4 * 16 + b / 16 < 64 := by omega
    have h3 : b % 16 * 4 + cc / 64 < 64 := by omega
    have h4 : cc % 64 < 64 := by omega
    unfold b64Encode at hc
    simp only [List.mem_cons] at hc
    rcases hc with rfl | rfl | rfl | rfl | hmem
    · exact ⟨b64Char_lt128 _ h1, Or.inl (b64Char_is _ h1)⟩
    · exact ⟨b64Char_lt128 _ h2, Or.inl (b64Char_is _ h2)⟩
    · exact ⟨b64Char_lt128 _ h3, Or.inl (b64Char_is _ h3)⟩
    · exact ⟨b64Char_lt128 _ h4, Or.inl (b64Char_is _ h4)⟩
    · exact ih (fun x hx => h x (by simp [hx])) c hmem

theorem b64Encode_len (l : List Nat) : (b64Encode l).length % 4 = 0 := by
  induction l using b64Encode.induct with
  | case1 => simp [b64Encode]
  | case2 a => simp [b64Encode]
  | case3 a b => simp [b64Encode]
  | case4 a b cc t ih =>
    simp only [b64Encode, List.length_cons]
    omega

theorem b64Groups_encode (l : List Nat) (h : ∀ b ∈ l, b < 256) :
    b64Groups (b64Encode l) = some l := by
  induction l using b64Encode.induct with
  | case1 => rfl
  | case2 a =>
    have ha := h a (by simp)
    have h1 : a / 4 < 64 := by omega
    have h2 : a % 4 * 16 < 64 := by omega
    show b64Groups [b64Char (a / 4), b64Char (a % 4 * 16), 61, 61] = some [a]
    unfold b64Groups
    rw [if_neg (by push_neg; exact ⟨b64Char_ne61 _ h1, b64Char_ne61 _ h2⟩)]
    rw [if_pos rfl, if_pos ⟨rfl, rfl⟩]
    rw [b64Val_char _ h1, b64Val_char _ h2]
    congr 1
    congr 1
    omega
  | case3 a b =>
    have ha := h a (by simp)
    have hb := h b (by simp)
    have h1 : a / 4 < 64 := by omega
    have h2 : a % 4 * 16 + b / 16 < 64 := by omega
    have h3 : b % 16 * 4 < 64 := by omega
    show b64Groups [b64Char (a / 4), b64Char (a % 4 * 16 + b / 16),
      b64Char (b % 16 * 4), 61] = some [a, b]
    unfold b64Groups
    rw [if_neg (by push_neg; exact ⟨b64Char_ne61 _ h1, b64Char_ne61 _ h2⟩)]
    rw [if_neg (b64Char_ne61 _ h3), if_pos rfl]
    rw [b64Val_char _ h1, b64Val_char _ h2, b64Val_char _ h3]
    have e1 : a / 4 * 4 + (a % 4 * 16 + b / 16) / 16 = a := by omega
    have e2 : (a % 4 * 16 + b / 16) % 16 * 16 + b % 16 * 4 / 4 = b := by omega
    rw [e1, e2]
    simp
  | case4 a b cc t ih =>
    have ha := h a (by simp)
    have hb := h b (by simp)
    have hcc := h cc (by simp)
    have h1 : a / 4 < 64 := by omega
    have h2 : a % 4 * 16 + b / 16 < 64 := by omega
    have h3 : b % 16 * 4 + cc / 64 < 64 := by omega
    have h4 : cc % 64 < 64 := by omega
    show b64Groups (b64Char (a / 4) :: b64Char (a % 4 * 16 + b / 16) ::
      b64Char (b % 16 * 4 + cc / 64) :: b64Char (cc % 64) :: b64Encode t) =
      some (a :: b :: cc :: t)
    unfold b64Groups
    rw [if_neg (by push_neg; exact ⟨b64Char_ne61 _ h1, b64Char_ne61 _ h2⟩)]
    rw [if_neg (b64Char_ne61 _ h3), if_neg (b64Char_ne61 _ h4)]
    rw [ih (fun x hx => h x (by simp [hx]))]
    rw [b64Val_char _ h1, b64Val_char _ h2, b64Val_char _ h3, b64Val_char _ h4]
    simp only [Option.map_some']
    congr 1
    have e1 : a / 4 * 4 + (a % 4 * 16 + b / 16) / 16 = a := by omega
    have e2 : (a % 4 * 16 + b / 16) % 16 * 16 + (b % 16 * 4 + cc / 64) / 4 = b := by
      omega
    have e3 : (b % 16 * 4 + cc / 64) % 4 * 64 + cc % 64 = cc := by omega
    rw [e1, e2, e3]

theorem b64_rt (l : List Nat) (h : ∀ b ∈ l, b < 256) :
    b64DecodePy (b64Encode l) = some l := by
  unfold b64DecodePy
  rw [if_pos]
  · have hfil : (b64Encode l).filter (fun c => isB64Char c ∨ c = 61) =
        b64Encode l := by
      rw [List.filter_eq_self]
      intro c hc
      have := (b64Encode_chars l h c hc).2
      simp only [Bool.or_eq_true, decide_eq_true_eq]
      tauto
    rw [hfil, if_pos (b64Encode_len l)]
    exact b64Groups_encode l h
  · rw [List.all_eq_true]
    intro c hc
    simp only [decide_eq_true_eq]
    exact (b64Encode_chars l h c hc).1

/-! ### The serialised packet text is ASCII; numeral tokens are valid -/

theorem isNumC_lt (c : Nat) (h : isNumC c = true) : c < 128 := by
  simp only [isNumC, isDigitC, Bool.or_eq_true, decide_eq_true_eq] at h
  omega

theorem asciiAll (n : Nat) :
    (∀ j : JVal, sizeOf j ≤ n → WFv j → ∀ c ∈ dumpsV j, c < 128) ∧
    (∀ l : List JVal, sizeOf l ≤ n → WFe l → ∀ c ∈ dumpsE l, c < 128) ∧
    (∀ kvs : List (PyStr × JVal), sizeOf kvs ≤ n → WFm kvs →
      ∀ c ∈ dumpsM kvs, c < 128) := by
  induction n using Nat.strong_induction_on with
  | _ n IH =>
    have hstr : ∀ (s : PyStr), ∀ c ∈ strLit s, c < 128 := by
      intro s c hc
      simp only [strLit, List.mem_cons, List.mem_append,
        List.mem_singleton, List.not_mem_nil, or_false] at hc
      rcases hc with (rfl | hm) | rfl
      · omega
      · obtain ⟨piece, hp, hcp⟩ := List.mem_flatten.mp hm
        obtain ⟨a, _, rfl⟩ := List.mem_map.mp hp
        exact escChar_ascii a c hcp
      · omega
    refine ⟨?_, ?_, ?_⟩
    · intro j hj hw c hc
      cases j with
      | jnull => revert hc; revert c; decide
      | jbool b => revert hc; revert c; cases b <;> decide
      | jnum tok => exact isNumC_lt c (hw.1 c hc)
      | jstr s => exact hstr s c hc
      | jarr l =>
        have hs : sizeOf (JVal.jarr l) = 1 + sizeOf l := by simp
        simp only [dumpsV, List.mem_cons, List.mem_append,
          List.mem_singleton, List.not_mem_nil, or_false] at hc
        rcases hc with (rfl | hm) | rfl
        · omega
        · exact (IH (n - 1) (by omega)).2.1 l (by omega) hw c hm
        · omega
      | jobj kvs =>
        have hs : sizeOf (JVal.jobj kvs) = 1 + sizeOf kvs := by simp
        simp only [dumpsV, lbraceC, rbraceC, List.mem_cons, List.mem_append,
          List.mem_singleton, List.not_mem_nil, or_false] at hc
        rcases hc with (rfl | hm) | rfl
        · omega
        · exact (IH (n - 1) (by omega)).2.2 kvs (by omega) hw c hm
        · omega
    · intro l hl hw c hc
      cases l with
      | nil => cases hc
      | cons v t =>
        have hs : sizeOf (v :: t) = 1 + sizeOf v + sizeOf t := by simp
        have hv : 0 < sizeOf v := by cases v <;> simp <;> omega
        cases t with
        | nil =>
          exact (IH (n - 1) (by omega)).1 v (by omega) hw.1 c hc
        | cons w u =>
          rw [show dumpsE (v :: w :: u) =
            dumpsV v ++ pyStr (", ") ++ dumpsE (w :: u) from rfl] at hc
          simp only [List.mem_append, pyStr_sepC, List.mem_cons,
            List.not_mem_nil, or_false] at hc
          rcases hc with (hm | rfl | rfl) | hm
          · exact (IH (n - 1) (by omega)).1 v (by omega) hw.1 c hm
          · omega
          · omega
          · exact (IH (n - 1) (by omega)).2.1 (w :: u) (by omega) hw.2 c hm
    · intro kvs hkvs hw c hc
      cases kvs with
      | nil => cases hc
      | cons kv t =>
        obtain ⟨k, v⟩ := kv
        have hs : sizeOf ((k, v) :: t) = 1 + (1 + sizeOf k + sizeOf v) + sizeOf t := by
          simp
        have hv : 0 < sizeOf v := by cases v <;> simp <;> omega
        cases t with
        | nil =>
          rw [show dumpsM [(k, v)] =
            strLit k ++ pyStr (": ") ++ dumpsV v from rfl] at hc
          simp only [List.mem_append, pyStr_sepM, List.mem_cons,
            List.not_mem_nil, or_false] at hc
          rcases hc with (hm | rfl | rfl) | hm
          · exact hstr k c hm
          · omega
          · omega
          · exact (IH (n - 1) (by omega)).1 v (by omega) hw.2.1 c hm
        | cons m u =>
          rw [show dumpsM ((k, v) :: m :: u) = strLit k ++ pyStr (": ") ++
            dumpsV v ++ pyStr (", ") ++ dumpsM (m :: u) from rfl] at hc
          simp only [List.mem_append, pyStr_sepM, pyStr_sepC, List.mem_cons,
            List.not_mem_nil, or_false] at hc
          rcases hc with (((hm | rfl | rfl) | hm) | rfl | rfl) | hm
          · exact hstr k c hm
          · omega
          · omega
          · exact (IH (n - 1) (by omega)).1 v (by omega) hw.2.1 c hm
          · omega
          · omega
          · exact (IH (n - 1) (by omega)).2.2 (m :: u) (by omega) hw.2.2 c hm

theorem dumpsV_ascii (j : JVal) (hw : WFv j) : ∀ c ∈ dumpsV j, c < 128 :=
  (asciiAll (sizeOf j)).1 j le_rfl hw

theorem validStr_of_ascii (s : PyStr) (h : ∀ c ∈ s, c < 128) : ValidStr s := by
  intro c hc
  have := h c hc
  omega

theorem natRepr_digits (n : Nat) : ∀ c ∈ natRepr n, 48 ≤ c ∧ c ≤ 57 := by
  induction n using natRepr.induct with
  | case1 n h =>
    intro c hc
    rw [natRepr, dif_pos h] at hc
    simp only [List.mem_singleton] at hc
    omega
  | case2 n h ih =>
    intro c hc
    rw [natRepr, dif_neg h] at hc
    simp only [List.mem_append, List.mem_singleton] at hc
    rcases hc with hm | rfl
    · exact ih c hm
    · have : n % 10 < 10 := Nat.mod_lt _ (by omega)
      omega

theorem natRepr_head_pos (n : Nat) (hn : 1 ≤ n) :
    ∃ c t, natRepr n = c :: t ∧ 49 ≤ c ∧ c ≤ 57 := by
  induction n using natRepr.induct with
  | case1 n h =>
    refine ⟨48 + n, [], ?_, by omega, by omega⟩
    rw [natRepr, dif_pos h]
  | case2 n h ih =>
    obtain ⟨c, t, hd, hc1, hc2⟩ := ih (by omega)
    refine ⟨c, t ++ [48 + n % 10], ?_, hc1, hc2⟩
    rw [natRepr, dif_neg h, hd]
    rfl

theorem dropWhile_digits (t : PyStr) (h : ∀ a ∈ t, 48 ≤ a ∧ a ≤ 57) :
    t.dropWhile isDigitC = [] := by
  rw [List.dropWhile_eq_nil_iff]
  intro a ha
  simp only [isDigitC, decide_eq_true_eq]
  exact h a ha

theorem natRepr_numTok (n : Nat) : numTokOk (natRepr n) = true := by
  rcases Nat.eq_zero_or_pos n with rfl | hn
  · have h0 : natRepr 0 = [48] := by
      rw [natRepr, dif_pos (by norm_num : (0 : Nat) < 10)]
    rw [h0]
    decide
  · obtain ⟨c, t, hd, hc1, hc2⟩ := natRepr_head_pos n hn
    have hdig : ∀ a ∈ t, 48 ≤ a ∧ a ≤ 57 := by
      intro a ha
      exact natRepr_digits n a (by rw [hd]; simp [ha])
    rw [hd, numTokOk_cons, if_neg (by omega), numIntOk_cons,
      if_neg (by omega), if_pos (by omega), dropWhile_digits t hdig]
    rfl

theorem natRepr_isNumTok (n : Nat) : IsNumTok (natRepr n) := by
  refine ⟨?_, natRepr_numTok n⟩
  intro c hc
  have := natRepr_digits n c hc
  simp only [isNumC, isDigitC, Bool.or_eq_true, decide_eq_true_eq]
  left
  omega

/-! ### Well-formedness of the packet's JSON tree -/

theorem validStr_take (s : PyStr) (n : Nat) (h : ∀ c ∈ s, c < 128) :
    ValidStr (s.take n) :=
  validStr_of_ascii _ (fun c hc => h c (List.mem_of_mem_take hc))

theorem sha256HexD_ascii (m : List Nat) : ∀ c ∈ sha256HexD m, c < 128 := by
  intro c hc
  exact bytesHex_ascii _ c hc

theorem payloadJson_wf (s fTok ft es qk : PyStr)
    (hs : ValidStr s) (hf : IsNumTok fTok) (hft : ValidStr ft)
    (hes : ValidStr es) (hqk : ValidStr qk) :
    WFv (payloadJson s fTok ft es qk) := by
  simp only [payloadJson, WFv, WFm]
  exact ⟨by decide, hs, by decide, hf, by decide, hft, by decide, hes,
    by decide, hqk, trivial⟩

theorem toDict_wf (p : IntentionPacket)
    (hi : ValidStr p.payload.intention) (hft : ValidStr p.payload.field_type)
    (hes : ValidStr p.payload.energy_signature)
    (hqk : ValidStr p.payload.quantum_entanglement_key)
    (hcs : ValidStr p.header.checksum)
    (hsd : ValidStr p.metadata.source_device)
    (htd : ValidStr p.metadata.target_device)
    (hse : ValidStr p.metadata.sacred_encoding)
    (hfT : IsNumTok p.freqTok) (hsT : IsNumTok p.strengthTok) :
    WFv p.toDict := by
  simp only [IntentionPacket.toDict, payloadJson, WFv, WFm]
  refine ⟨by decide, ⟨by decide, natRepr_isNumTok _, by decide,
    natRepr_isNumTok _, by decide, natRepr_isNumTok _, by decide,
    natRepr_isNumTok _, by decide, natRepr_isNumTok _, by decide, hcs,
    trivial⟩, by decide,
    ⟨by decide, hi, by decide, hfT, by decide, hft, by decide, hes,
     by decide, hqk, trivial⟩, by decide,
    ⟨by decide, hsd, by decide, htd, by decide, hsT, by decide, hse,
     trivial⟩, trivial⟩

/-! ### Packet round trip -/

theorem packet_roundtrip (s ft td es qk fTok sTok src : PyStr) (f : ℚ)
    (seq ts : Nat)
    (hvs : ValidStr s) (hft : ValidStr ft) (htd : ValidStr td)
    (hes : ValidStr es) (hqk : ValidStr qk)
    (hsrc : ValidStr src)
    (hfTok : IsNumTok fTok) (hsTok : IsNumTok sTok) :
    extract_intention_from_packet
      ((mkIntentionPacket s f fTok ft td es qk sTok seq ts src).to_base64)
      = some (.jstr s) := by
  have hcs : ValidStr
      (mkIntentionPacket s f fTok ft td es qk sTok seq ts src).header.checksum := by
    show ValidStr ((sha256HexD
      (utf8Encode (dumpsV (payloadJson s fTok ft es qk)))).take 16)
    exact validStr_take _ _ (sha256HexD_ascii _)
  have hwf : WFv (mkIntentionPacket s f fTok ft td es qk sTok seq ts src).toDict :=
    toDict_wf (mkIntentionPacket s f fTok ft td es qk sTok seq ts src)
      hvs hft hes hqk hcs hsrc htd
      (by show ValidStr (pyStr ("merkaba-torus-fibonacci")); decide) hfTok hsTok
  have hascii : ∀ c ∈ dumpsV
      (mkIntentionPacket s f fTok ft td es qk sTok seq ts src).toDict, c < 128 :=
    dumpsV_ascii _ hwf
  have h1 : utf8Encode (dumpsV
      (mkIntentionPacket s f fTok ft td es qk sTok seq ts src).toDict)
      = dumpsV (mkIntentionPacket s f fTok ft td es qk sTok seq ts src).toDict :=
    utf8Encode_ascii _ hascii
  have h2 : b64DecodePy (b64Encode (dumpsV
      (mkIntentionPacket s f fTok ft td es qk sTok seq ts src).toDict))
      = some (dumpsV (mkIntentionPacket s f fTok ft td es qk sTok seq ts src).toDict) :=
    b64_rt _ (fun b hb => lt_trans (hascii b hb) (by norm_num))
  have h3 : utf8Decode (dumpsV
      (mkIntentionPacket s f fTok ft td es qk sTok seq ts src).toDict)
      = some (dumpsV (mkIntentionPacket s f fTok ft td es qk sTok seq ts src).toDict) :=
    utf8Decode_ascii _ hascii
  have h4 : jsonLoads (dumpsV
      (mkIntentionPacket s f fTok ft td es qk sTok seq ts src).toDict)
      = some (mkIntentionPacket s f fTok ft td es qk sTok seq ts src).toDict :=
    jsonLoads_dumps _ hwf
  have h5 : jGet (mkIntentionPacket s f fTok ft td es qk sTok seq ts src).toDict
      (pyStr ("payload")) = some (payloadJson s fTok ft es qk) := rfl
  have h6 : jGet (payloadJson s fTok ft es qk) (pyStr ("intention"))
      = some (.jstr s) := rfl
  show extract_intention_from_packet
      (b64Encode (utf8Encode (dumpsV
        (mkIntentionPacket s f fTok ft td es qk sTok seq ts src).toDict)))
      = some (.jstr s)
  rw [h1]
  unfold extract_intention_from_packet
  rw [h2]
  simp only [Option.some_bind]
  rw [h3]
  simp only [Option.some_bind]
  rw [h4]
  simp only [Option.some_bind]
  rw [h5]
  simp only [Option.some_bind]
  exact h6

/-! ### The planetary fold of `flower_of_life_pattern` -/

/-- One step of the `for planet, degree in PLANETARY_ANGLES.items()` loop:
update on strictly smaller plain absolute difference. -/
def planStep (deg : ℚ) (acc : PyStr × ℚ) (pa : PyStr × ℚ) : PyStr × ℚ :=
  if |pa.2 - deg| < acc.2 then (pa.1, |pa.2 - deg|) else acc

/-- The spec's selection rule, in its own words: angular distance on the
360-degree circle (spec-modelled, for comparison with `planStep`). -/
def specAngDist (a d : ℚ) : ℚ := min |a - d| (360 - |a - d|)

theorem planFold_char (deg : ℚ) (l : List (PyStr × ℚ)) :
    ∀ acc : PyStr × ℚ,
    (l.foldl (planStep deg) acc = acc ∧ ∀ kv ∈ l, acc.2 ≤ |kv.2 - deg|)
    ∨ (∃ pre kv post, l = pre ++ kv :: post ∧
        l.foldl (planStep deg) acc = (kv.1, |kv.2 - deg|) ∧
        |kv.2 - deg| < acc.2 ∧
        (∀ kv2 ∈ pre, |kv.2 - deg| < |kv2.2 - deg|) ∧
        (∀ kv2 ∈ post, |kv.2 - deg| ≤ |kv2.2 - deg|)) := by
  induction l with
  | nil =>
    intro acc
    left
    exact ⟨rfl, by intro kv h; cases h⟩
  | cons hd tl IH =>
    intro acc
    by_cases hlt : |hd.2 - deg| < acc.2
    · have hstep : (hd :: tl).foldl (planStep deg) acc
        = tl.foldl (planStep deg) (hd.1, |hd.2 - deg|) := by
        simp only [List.foldl_cons, planStep, if_pos hlt]
      rcases IH (hd.1, |hd.2 - deg|) with ⟨heq, hall⟩ |
        ⟨pre, kv, post, hsplit, hres, hlt2, hpre, hpost⟩
      · right
        refine ⟨[], hd, tl, by simp, ?_, hlt, ?_, ?_⟩
        · rw [hstep, heq]
        · intro kv2 h2
          cases h2
        · intro kv2 h2
          exact hall kv2 h2
      · right
        refine ⟨hd :: pre, kv, post, by rw [hsplit]; rfl, ?_, ?_, ?_, hpost⟩
        · rw [hstep, hres]
        · exact lt_trans hlt2 hlt
        · intro kv2 h2
          rcases List.mem_cons.mp h2 with rfl | h2
          · exact hlt2
          · exact hpre kv2 h2
    · have hstep : (hd :: tl).foldl (planStep deg) acc
        = tl.foldl (planStep deg) acc := by
        simp only [List.foldl_cons, planStep, if_neg hlt]
      push_neg at hlt
      rcases IH acc with ⟨heq, hall⟩ |
        ⟨pre, kv, post, hsplit, hres, hlt2, hpre, hpost⟩
      · left
        refine ⟨by rw [hstep, heq], ?_⟩
        intro kv2 h2
        rcases List.mem_cons.mp h2 with rfl | h2
        · exact hlt
        · exact hall kv2 h2
      · right
        refine ⟨hd :: pre, kv, post, by rw [hsplit]; rfl, ?_, hlt2, ?_, hpost⟩
        · rw [hstep, hres]
        · intro kv2 h2
          rcases List.mem_cons.mp h2 with rfl | h2
          · exact lt_of_lt_of_le hlt2 hlt
          · exact hpre kv2 h2

theorem absval (a b c : ℚ) (h : a - b = -c) (hc : 0 ≤ c) : |a - b| = c := by
  rw [h, abs_neg, abs_of_nonneg hc]

theorem flower_alignment (i : PyStr) (d : Int) (now : Clock)
    (hh : now.hour ≤ 23) (hm : now.minute ≤ 59) :
    (flowerCore i d now).cosmic_degree
      = (now.hour : ℚ) * 15 + (now.minute : ℚ) / 4 ∧
    ∃ pre α post,
      PLANETARY_ANGLES
        = pre ++ ((flowerCore i d now).planetary_alignment, α) :: post ∧
      (∀ kv ∈ pre, |α - (flowerCore i d now).cosmic_degree|
        < |kv.2 - (flowerCore i d now).cosmic_degree|) ∧
      ∀ kv ∈ PLANETARY_ANGLES, |α - (flowerCore i d now).cosmic_degree|
        ≤ |kv.2 - (flowerCore i d now).cosmic_degree| := by
  have h23 : (now.hour : ℚ) ≤ 23 := by exact_mod_cast hh
  have h59 : (now.minute : ℚ) ≤ 59 := by exact_mod_cast hm
  have h0h : (0 : ℚ) ≤ (now.hour : ℚ) := by positivity
  have h0m : (0 : ℚ) ≤ (now.minute : ℚ) := by positivity
  have hdeg : (flowerCore i d now).cosmic_degree
      = (now.hour : ℚ) * 15 + (now.minute : ℚ) / 4 := rfl
  refine ⟨hdeg, ?_⟩
  have halign : (flowerCore i d now).planetary_alignment
      = (PLANETARY_ANGLES.foldl
          (planStep ((now.hour : ℚ) * 15 + (now.minute : ℚ) / 4))
          (pyStr ("sun"), 360)).1 := rfl
  rcases planFold_char ((now.hour : ℚ) * 15 + (now.minute : ℚ) / 4)
      PLANETARY_ANGLES (pyStr ("sun"), 360) with ⟨_, hall⟩ |
      ⟨pre, kv, post, hsplit, hres, _, hpre, hpost⟩
  · exfalso
    have hsun : (pyStr ("sun"), (0 : ℚ)) ∈ PLANETARY_ANGLES := by
      simp [PLANETARY_ANGLES]
    have h360 := hall _ hsun
    rw [show ((pyStr ("sun"), (0 : ℚ)).2 : ℚ) = 0 from rfl] at h360
    rw [show ((pyStr ("sun"), (360 : ℚ)).2 : ℚ) = 360 from rfl] at h360
    rw [zero_sub, abs_neg, abs_of_nonneg (by positivity)] at h360
    linarith
  · refine ⟨pre, kv.2, post, ?_, ?_, ?_⟩
    · rw [halign, hres, hsplit]
    · intro kv2 h2
      rw [hdeg]
      exact hpre kv2 h2
    · intro kv2 h2
      rw [hdeg]
      rcases List.mem_append.mp (hsplit ▸ h2) with hin | hin
      · exact le_of_lt (hpre kv2 hin)
      · rcases List.mem_cons.mp hin with rfl | hin
        · exact le_refl _
        · exact hpost kv2 hin

/-! ### Platonic solid lookup -/

theorem propsLookup_none (st : PyStr)
    (h : st ∉ platonicProperties.map Prod.fst) :
    propsLookup st = none := by
  unfold propsLookup
  rw [List.find?_eq_none.mpr]
  · rfl
  · intro kv hkv
    simp only [decide_eq_true_eq]
    intro he
    exact h (he ▸ List.mem_map_of_mem Prod.fst hkv)

theorem platonicCore_key (i st : PyStr) :
    (platonicCore i st).solid_type ∈ platonicProperties.map Prod.fst := by
  unfold platonicCore
  cases hfind : propsLookup st with
  | none =>
    show pyStr ("dodecahedron") ∈ platonicProperties.map Prod.fst
    simp [platonicProperties]
  | some pr =>
    show st ∈ platonicProperties.map Prod.fst
    unfold propsLookup at hfind
    cases hf2 : platonicProperties.find? (fun kv => decide (kv.1 = st)) with
    | none => rw [hf2] at hfind; cases hfind
    | some kv =>
      have hkv : kv.1 = st := by
        have := List.find?_some hf2
        simpa using this
      have hmem := List.mem_of_find?_eq_some hf2
      exact hkv ▸ List.mem_map_of_mem Prod.fst hmem

/-! ### The claims -/

/-- Claim C1 (corrected): the spec requires construction to fail with
`InvalidArgument` when the intention is empty or the frequency is not
positive, but `IntentionPacket.__init__` performs no validation at all:
construction succeeds for every such input and stores the offending values
unchanged. -/
theorem claim_C1 (s ft td es qk fTok sTok src : PyStr) (f : ℚ)
    (seq ts : Nat) (h : s = [] ∨ f ≤ 0) :
    ∃ p, intentionPacketNew s f fTok ft td es qk sTok seq ts src = .ok p
      ∧ p.payload.intention = s ∧ p.payload.frequency = f :=
  ⟨_, rfl, rfl, rfl⟩

/-- Counterexample to C1 as specified: an empty intention (with positive
frequency) and a zero frequency (with non-empty intention) both construct
successfully instead of raising. -/
theorem claim_C1_counterexample :
    (intentionPacketNew [] 1 [] [] [] [] [] [] 0 0 broadcasterSource).isOk
      = true ∧
    (intentionPacketNew (pyStr ("Heal")) 0 [] [] [] [] [] [] 0 0
      broadcasterSource).isOk = true :=
  ⟨rfl, rfl⟩

/-- Witness for C1 at the empty intention. -/
theorem claim_C1_witness :
    ∃ p, intentionPacketNew [] (1 : ℚ) [] [] [] [] [] [] 0 0 broadcasterSource
      = .ok p ∧ p.payload.intention = [] ∧ p.payload.frequency = 1 :=
  claim_C1 [] [] [] [] [] [] [] broadcasterSource 1 0 0 (Or.inl rfl)

/-- Claim C2 (confirmed): for every valid input — non-empty well-formed
intention, positive frequency, well-formed field type and target device —
extracting the intention from the Base64 form of the freshly built packet
returns exactly the original intention. -/
theorem claim_C2 (s ft td es qk fTok sTok : PyStr) (f : ℚ) (seq ts : Nat)
    (hne : s ≠ []) (hpos : 0 < f)
    (hvs : ValidStr s) (hft : ValidStr ft) (htd : ValidStr td)
    (hes : ValidStr es) (hqk : ValidStr qk)
    (hfTok : IsNumTok fTok) (hsTok : IsNumTok sTok) :
    extract_intention_from_packet
      ((mkIntentionPacket s f fTok ft td es qk sTok seq ts
          broadcasterSource).to_base64)
      = some (.jstr s) :=
  packet_roundtrip s ft td es qk fTok sTok broadcasterSource f seq ts
    hvs hft htd hes hqk (by decide) hfTok hsTok

/-- Witness for C2 at the spec's scenario inputs. -/
theorem claim_C2_witness :
    extract_intention_from_packet
      ((mkIntentionPacket (pyStr ("Peace")) (783 / 100) (pyStr ("7.83"))
          (pyStr ("torus")) (pyStr ("broadcast")) (pyStr ("a3")) (pyStr ("b4"))
          (pyStr ("0.3915")) 1 0 broadcasterSource).to_base64)
      = some (.jstr (pyStr ("Peace"))) :=
  claim_C2 (pyStr ("Peace")) (pyStr ("torus")) (pyStr ("broadcast"))
    (pyStr ("a3")) (pyStr ("b4")) (pyStr ("7.83")) (pyStr ("0.3915"))
    (783 / 100) 1 0 (by decide) (by norm_num) (by decide) (by decide)
    (by decide) (by decide) (by decide) (by decide) (by decide)

/-- Claim C3 (confirmed): the header checksum is the first 16 hex characters
of the SHA-256 digest of the serialised payload JSON text in its fixed field
order, and packets with identical payload JSON texts have identical
checksums. -/
theorem claim_C3
    (s ft td es qk fTok sTok src s2 ft2 td2 es2 qk2 fTok2 sTok2 src2 : PyStr)
    (f f2 : ℚ) (seq ts seq2 ts2 : Nat)
    (h : dumpsV (payloadJson s fTok ft es qk)
       = dumpsV (payloadJson s2 fTok2 ft2 es2 qk2)) :
    (mkIntentionPacket s f fTok ft td es qk sTok seq ts src).header.checksum
      = (sha256HexD (utf8Encode
          (dumpsV (payloadJson s fTok ft es qk)))).take 16
    ∧ (mkIntentionPacket s f fTok ft td es qk sTok seq ts src).header.checksum
      = (mkIntentionPacket s2 f2 fTok2 ft2 td2 es2 qk2 sTok2 seq2 ts2
          src2).header.checksum := by
  constructor
  · rfl
  · show (sha256HexD (utf8Encode (dumpsV (payloadJson s fTok ft es qk)))).take 16
      = (sha256HexD (utf8Encode
          (dumpsV (payloadJson s2 fTok2 ft2 es2 qk2)))).take 16
    rw [h]

/-- Witness for C3: same payload text, different sequence number and
timestamp, same checksum. -/
theorem claim_C3_witness :
    (mkIntentionPacket (pyStr ("Peace")) (783 / 100) (pyStr ("7.83"))
        (pyStr ("torus")) (pyStr ("broadcast")) [] [] [] 1 5
        broadcasterSource).header.checksum
      = (sha256HexD (utf8Encode (dumpsV (payloadJson (pyStr ("Peace"))
          (pyStr ("7.83")) (pyStr ("torus")) [] [])))).take 16
    ∧ (mkIntentionPacket (pyStr ("Peace")) (783 / 100) (pyStr ("7.83"))
        (pyStr ("torus")) (pyStr ("broadcast")) [] [] [] 1 5
        broadcasterSource).header.checksum
      = (mkIntentionPacket (pyStr ("Peace")) (783 / 100) (pyStr ("7.83"))
          (pyStr ("torus")) (pyStr ("other")) [] [] [] 2 9
          broadcasterSource).header.checksum :=
  claim_C3 (pyStr ("Peace")) (pyStr ("torus")) (pyStr ("broadcast")) [] []
    (pyStr ("7.83")) [] broadcasterSource (pyStr ("Peace")) (pyStr ("torus"))
    (pyStr ("other")) [] [] (pyStr ("7.83")) [] broadcasterSource
    (783 / 100) (783 / 100) 1 5 2 9 rfl

/-- Claim C4 (confirmed): whenever Base64 decoding, UTF-8 decoding or JSON
parsing fails, or the parsed JSON lacks `payload` or `intention`,
`extract_intention_from_packet` returns `None` (no exception escapes). -/
theorem claim_C4 (s : PyStr)
    (h : b64DecodePy s = none
      ∨ (∃ bs, b64DecodePy s = some bs ∧ utf8Decode bs = none)
      ∨ (∃ bs txt, b64DecodePy s = some bs ∧ utf8Decode bs = some txt
          ∧ jsonLoads txt = none)
      ∨ (∃ bs txt j, b64DecodePy s = some bs ∧ utf8Decode bs = some txt
          ∧ jsonLoads txt = some j
          ∧ (jGet j (pyStr ("payload")) = none
             ∨ ∃ pl, jGet j (pyStr ("payload")) = some pl
                 ∧ jGet pl (pyStr ("intention")) = none))) :
    extract_intention_from_packet s = none := by
  unfold extract_intention_from_packet
  rcases h with h | ⟨bs, h1, h2⟩ | ⟨bs, txt, h1, h2, h3⟩ |
    ⟨bs, txt, j, h1, h2, h3, h4⟩
  · rw [h]
    rfl
  · rw [h1]
    simp [h2]
  · rw [h1]
    simp [h2, h3]
  · rcases h4 with h4 | ⟨pl, h4, h5⟩
    · rw [h1]
      simp [h2, h3, h4]
    · rw [h1]
      simp [h2, h3, h4, h5]

/-- Witness for C4 at the spec's scenario input. -/
theorem claim_C4_witness :
    extract_intention_from_packet (pyStr ("not-valid-base64!!!")) = none :=
  claim_C4 (pyStr ("not-valid-base64!!!")) (Or.inl (by decide))

/-- Claim C5 (confirmed): every generator except the flower-of-life one is
independent of the clock instant, so two calls with identical arguments give
identical results; in particular the torus generator at ("Heal", 7.83). -/
theorem claim_C5 (i st : PyStr) (q : ℚ) (b : Bool) (n1 n2 : Clock) :
    divine_proportion_amplify i q n1 = divine_proportion_amplify i q n2 ∧
    torus_field_generator i q n1 = torus_field_generator i q n2 ∧
    merkaba_field_generator i q n1 = merkaba_field_generator i q n2 ∧
    metatrons_cube_amplifier i b n1 = metatrons_cube_amplifier i b n2 ∧
    sri_yantra_encoder i n1 = sri_yantra_encoder i n2 ∧
    platonic_solid_resonator i st n1 = platonic_solid_resonator i st n2 ∧
    torus_field_generator (pyStr ("Heal")) SCHUMANN_RESONANCE n1
      = torus_field_generator (pyStr ("Heal")) SCHUMANN_RESONANCE n2 :=
  ⟨rfl, rfl, rfl, rfl, rfl, rfl, rfl⟩

/-- Claim C6 (confirmed): every generator rejects an empty intention with a
`ValueError`, and the frequency/duration-taking generators reject
non-positive frequency or duration with a `ValueError`. -/
theorem claim_C6 (i st : PyStr) (q : ℚ) (d : Int) (b : Bool) (now : Clock) :
    (∃ m, divine_proportion_amplify [] q now = .error (.valueError m)) ∧
    (∃ m, torus_field_generator [] q now = .error (.valueError m)) ∧
    (∃ m, merkaba_field_generator [] q now = .error (.valueError m)) ∧
    (∃ m, flower_of_life_pattern [] d now = .error (.valueError m)) ∧
    (∃ m, metatrons_cube_amplifier [] b now = .error (.valueError m)) ∧
    (∃ m, sri_yantra_encoder [] now = .error (.valueError m)) ∧
    (∃ m, platonic_solid_resonator [] st now = .error (.valueError m)) ∧
    (q ≤ 0 → ∃ m, torus_field_generator i q now = .error (.valueError m)) ∧
    (q ≤ 0 → ∃ m, merkaba_field_generator i q now = .error (.valueError m)) ∧
    (d ≤ 0 → ∃ m, flower_of_life_pattern i d now = .error (.valueError m)) := by
  refine ⟨⟨_, rfl⟩, ⟨_, rfl⟩, ⟨_, rfl⟩, ⟨_, rfl⟩, ⟨_, rfl⟩, ⟨_, rfl⟩,
    ⟨_, rfl⟩, ?_, ?_, ?_⟩
  · intro hq
    by_cases hi : i = []
    · subst hi
      exact ⟨_, rfl⟩
    · refine ⟨pyStr ("Frequency must be positive"), ?_⟩
      unfold torus_field_generator
      rw [if_neg hi, if_pos hq]
  · intro hq
    by_cases hi : i = []
    · subst hi
      exact ⟨_, rfl⟩
    · refine ⟨pyStr ("Frequency must be positive"), ?_⟩
      unfold merkaba_field_generator
      rw [if_neg hi, if_pos hq]
  · intro hd
    by_cases hi : i = []
    · subst hi
      exact ⟨_, rfl⟩
    · refine ⟨pyStr ("Duration must be positive"), ?_⟩
      unfold flower_of_life_pattern
      rw [if_neg hi, if_pos hd]

/-- Witness for C6: zero frequency and zero duration are rejected, the empty
intention is rejected. -/
theorem claim_C6_witness :
    (∃ m, torus_field_generator (pyStr ("Heal")) 0 ⟨0, 0⟩
      = .error (.valueError m)) ∧
    (∃ m, merkaba_field_generator (pyStr ("Heal")) 0 ⟨0, 0⟩
      = .error (.valueError m)) ∧
    (∃ m, flower_of_life_pattern (pyStr ("Heal")) 0 ⟨0, 0⟩
      = .error (.valueError m)) ∧
    (∃ m, divine_proportion_amplify [] 1 ⟨0, 0⟩
      = .error (.valueError m)) := by
  have h := claim_C6 (pyStr ("Heal")) [] 0 0 false ⟨0, 0⟩
  have h2 := claim_C6 (pyStr ("Heal")) [] 1 1 false ⟨0, 0⟩
  exact ⟨h.2.2.2.2.2.2.2.1 (le_refl 0), h.2.2.2.2.2.2.2.2.1 (le_refl 0),
    h.2.2.2.2.2.2.2.2.2 (le_refl 0), h2.1⟩

/-- Claim C7 (confirmed): the stored intention strength is
`min(len(intention) * frequency / 100, 100)` and, for positive frequency,
lies in the interval `[0, 100]`. -/
theorem claim_C7 (s ft td es qk fTok sTok src : PyStr) (f : ℚ)
    (seq ts : Nat) (hne : s ≠ []) (hpos : 0 < f) :
    (mkIntentionPacket s f fTok ft td es qk sTok seq ts
        src).metadata.intention_strength
      = min ((s.length : ℚ) * f / 100) 100
    ∧ 0 ≤ (mkIntentionPacket s f fTok ft td es qk sTok seq ts
        src).metadata.intention_strength
    ∧ (mkIntentionPacket s f fTok ft td es qk sTok seq ts
        src).metadata.intention_strength ≤ 100 := by
  refine ⟨rfl, ?_, ?_⟩
  · show (0 : ℚ) ≤ min ((s.length : ℚ) * f / 100) 100
    apply le_min
    · positivity
    · norm_num
  · show min ((s.length : ℚ) * f / 100) 100 ≤ 100
    exact min_le_right _ _

/-- Witness for C7 at the spec's scenario: "Peace" at 7.83 Hz gives
strength 0.3915 = 783/2000. -/
theorem claim_C7_witness :
    (mkIntentionPacket (pyStr ("Peace")) (783 / 100) (pyStr ("7.83"))
        (pyStr ("torus")) (pyStr ("broadcast")) [] [] (pyStr ("0.3915")) 1 0
        broadcasterSource).metadata.intention_strength = 783 / 2000 := by
  have h := claim_C7 (pyStr ("Peace")) (pyStr ("torus")) (pyStr ("broadcast"))
    [] [] (pyStr ("7.83")) (pyStr ("0.3915")) broadcasterSource (783 / 100) 1 0
    (by decide) (by norm_num)
  rw [h.1, show (pyStr ("Peace")).length = 5 from rfl]
  have h2 : ((5 : Nat) : ℚ) * (783 / 100) / 100 = 783 / 2000 := by norm_num
  rw [h2]
  exact min_eq_left (by norm_num)

/-- Claim C8 (confirmed): the header length equals the byte size of the
UTF-8 encoding of the serialised payload JSON text, for every well-formed
intention including non-ASCII ones (the serialised text is ASCII because
`json.dumps` escapes, so character count and byte count coincide). -/
theorem claim_C8 (s ft td es qk fTok sTok src : PyStr) (f : ℚ)
    (seq ts : Nat)
    (hvs : ValidStr s) (hft : ValidStr ft) (hes : ValidStr es)
    (hqk : ValidStr qk) (hfTok : IsNumTok fTok) :
    (mkIntentionPacket s f fTok ft td es qk sTok seq ts src).header.length
      = (utf8Encode (dumpsV (payloadJson s fTok ft es qk))).length := by
  have hwf := payloadJson_wf s fTok ft es qk hvs hfTok hft hes hqk
  rw [utf8Encode_ascii _ (dumpsV_ascii _ hwf)]
  rfl

/-- Witness for C8 with a non-ASCII intention. -/
theorem claim_C8_witness :
    (mkIntentionPacket (pyStr ("Pāz")) 1 (pyStr ("1.0")) (pyStr ("torus"))
        [] [] [] [] 0 0 broadcasterSource).header.length
      = (utf8Encode (dumpsV (payloadJson (pyStr ("Pāz")) (pyStr ("1.0"))
          (pyStr ("torus")) [] []))).length :=
  claim_C8 (pyStr ("Pāz")) (pyStr ("torus")) [] [] [] (pyStr ("1.0")) []
    broadcasterSource 1 0 0 (by decide) (by decide) (by decide) (by decide)
    (by decide)

/-- Claim C9 (corrected): the cosmic degree is `hour * 15 + minute / 4`, and
the planetary label is the first entry of `PLANETARY_ANGLES` minimising the
plain absolute difference `|angle - degree|` — not the circular angular
distance the spec describes. -/
theorem claim_C9 (i : PyStr) (d : Int) (now : Clock)
    (hi : i ≠ []) (hd : 0 < d) (hh : now.hour ≤ 23) (hm : now.minute ≤ 59) :
    ∃ a, flower_of_life_pattern i d now = .ok a ∧
      a.cosmic_degree = (now.hour : ℚ) * 15 + (now.minute : ℚ) / 4 ∧
      ∃ pre α post,
        PLANETARY_ANGLES = pre ++ (a.planetary_alignment, α) :: post ∧
        (∀ kv ∈ pre, |α - a.cosmic_degree| < |kv.2 - a.cosmic_degree|) ∧
        ∀ kv ∈ PLANETARY_ANGLES,
          |α - a.cosmic_degree| ≤ |kv.2 - a.cosmic_degree| := by
  refine ⟨flowerCore i d now, ?_, (flower_alignment i d now hh hm).1,
    (flower_alignment i d now hh hm).2⟩
  unfold flower_of_life_pattern
  rw [if_neg hi, if_neg (not_le.mpr hd)]

/-- Counterexample to C9 as specified: at 23:00 the cosmic degree is 345;
the code picks "pluto" (angle 270, plain difference 75), yet on the circle
"sun" (angle 0) is only 15 degrees away — the selection is not by nearest
angular distance. -/
theorem claim_C9_counterexample :
    (flowerCore (pyStr ("Heal")) 1 ⟨23, 0⟩).planetary_alignment
      = pyStr ("pluto") ∧
    (flowerCore (pyStr ("Heal")) 1 ⟨23, 0⟩).cosmic_degree = 345 ∧
    specAngDist 0 345 < specAngDist 270 345 ∧
    (pyStr ("sun"), (0 : ℚ)) ∈ PLANETARY_ANGLES := by
  have hdeg : ((23 : Nat) : ℚ) * 15 + ((0 : Nat) : ℚ) / 4 = 345 := by norm_num
  have h : (flowerCore (pyStr ("Heal")) 1 ⟨23, 0⟩).planetary_alignment
      = (PLANETARY_ANGLES.foldl
          (planStep (((23 : Nat) : ℚ) * 15 + ((0 : Nat) : ℚ) / 4))
          (pyStr ("sun"), 360)).1 := rfl
  rw [hdeg] at h
  have e0 : |(0 : ℚ) - 345| = 345 := absval _ _ _ (by norm_num) (by norm_num)
  have e1 : |(30 : ℚ) - 345| = 315 := absval _ _ _ (by norm_num) (by norm_num)
  have e2 : |(60 : ℚ) - 345| = 285 := absval _ _ _ (by norm_num) (by norm_num)
  have e3 : |(90 : ℚ) - 345| = 255 := absval _ _ _ (by norm_num) (by norm_num)
  have e4 : |(120 : ℚ) - 345| = 225 := absval _ _ _ (by norm_num) (by norm_num)
  have e5 : |(150 : ℚ) - 345| = 195 := absval _ _ _ (by norm_num) (by norm_num)
  have e6 : |(180 : ℚ) - 345| = 165 := absval _ _ _ (by norm_num) (by norm_num)
  have e7 : |(210 : ℚ) - 345| = 135 := absval _ _ _ (by norm_num) (by norm_num)
  have e8 : |(240 : ℚ) - 345| = 105 := absval _ _ _ (by norm_num) (by norm_num)
  have e9 : |(270 : ℚ) - 345| = 75 := absval _ _ _ (by norm_num) (by norm_num)
  refine ⟨?_, by norm_num [flowerCore], ?_, by simp [PLANETARY_ANGLES]⟩
  · rw [h]
    norm_num [PLANETARY_ANGLES, List.foldl_cons, List.foldl_nil, planStep,
      e0, e1, e2, e3, e4, e5, e6, e7, e8, e9]
  · rw [show specAngDist 0 345 = 15 from by
        rw [specAngDist, e0]; norm_num [min_def],
      show specAngDist 270 345 = 75 from by
        rw [specAngDist, e9]; norm_num [min_def]]
    norm_num

/-- Witness for C9 at the counterexample's instant. -/
theorem claim_C9_witness :
    ∃ a, flower_of_life_pattern (pyStr ("Heal")) 1 (Clock.mk 23 0) = .ok a ∧
      a.cosmic_degree = ((Clock.mk 23 0).hour : ℚ) * 15
        + ((Clock.mk 23 0).minute : ℚ) / 4 ∧
      ∃ pre α post,
        PLANETARY_ANGLES = pre ++ (a.planetary_alignment, α) :: post ∧
        (∀ kv ∈ pre, |α - a.cosmic_degree| < |kv.2 - a.cosmic_degree|) ∧
        ∀ kv ∈ PLANETARY_ANGLES,
          |α - a.cosmic_degree| ≤ |kv.2 - a.cosmic_degree| :=
  claim_C9 (pyStr ("Heal")) 1 (Clock.mk 23 0) (by decide) (by norm_num)
    (by norm_num) (by norm_num)

/-- Claim C10 (confirmed): for an unknown solid type the resonator does not
fail — it silently substitutes "dodecahedron" (element "ether", frequency
741) — and the returned solid type is always one of the five known names. -/
theorem claim_C10 (i st st2 : PyStr) (now : Clock) (hi : i ≠ [])
    (hst : st ∉ platonicProperties.map Prod.fst) :
    (∃ a, platonic_solid_resonator i st now = .ok a ∧
      a.solid_type = pyStr ("dodecahedron") ∧ a.element = pyStr ("ether") ∧
      a.element_frequency = 741) ∧
    ∀ a2, platonic_solid_resonator i st2 now = .ok a2 →
      a2.solid_type ∈ platonicProperties.map Prod.fst := by
  constructor
  · refine ⟨platonicCore i st, ?_, ?_, ?_, ?_⟩
    · unfold platonic_solid_resonator
      rw [if_neg hi]
    · show (platonicCore i st).solid_type = pyStr ("dodecahedron")
      unfold platonicCore
      rw [propsLookup_none st hst]
      rfl
    · show (platonicCore i st).element = pyStr ("ether")
      unfold platonicCore
      rw [propsLookup_none st hst]
      rfl
    · show (platonicCore i st).element_frequency = 741
      unfold platonicCore
      rw [propsLookup_none st hst]
      rfl
  · intro a2 h2
    unfold platonic_solid_resonator at h2
    rw [if_neg hi] at h2
    injection h2 with h3
    rw [← h3]
    exact platonicCore_key i st2

/-- Witness for C10 at the unknown solid type "banana". -/
theorem claim_C10_witness :
    ∃ a, platonic_solid_resonator (pyStr ("Heal")) (pyStr ("banana")) ⟨0, 0⟩
      = .ok a ∧
      a.solid_type = pyStr ("dodecahedron") ∧ a.element = pyStr ("ether") ∧
      a.element_frequency = 741 :=
  (claim_C10 (pyStr ("Heal")) (pyStr ("banana")) (pyStr ("banana")) ⟨0, 0⟩
    (by decide) (by decide)).1
